import Mathlib

/-!
# Cut-cell core of 4C: tolerance table and `VolumeCell`

A shallow embedding of `src/cut/4C_cut_tolerance.hpp` and of the inline
members of `Cut::VolumeCell` (`src/cut/4C_cut_volumecell.hpp`). The
quadrature builders and the precision escalation of the cut kernel are
defined in files outside the sources; where a statement needs them they are
modelled from the specification, and every such definition says so.

Conventions.
* A C++ `double` is read as the exact rational its decimal literal denotes
  (`1e-14` is `1 / 10 ^ 14`); rounding of IEEE arithmetic is not modelled.
* A pointer is the natural number identifying the object it points to.
* A member function that may write to the object returns the new object
  next to its result.
-/

namespace Cut

/-! ## Tolerances (`4C_cut_tolerance.hpp`) -/

/-- `#define BASICTOL 1e-14`: basic tolerance for the cut. -/
def BASICTOL : ℚ := 1e-14

/-- `#define POSITIONTOL (BASICTOL * 10.0)`, as a function of the base the
preprocessor substitutes. -/
def POSITIONTOL (BASICTOL : ℚ) : ℚ := (BASICTOL * 10.0)

/-- `#define REFERENCETOL (BASICTOL * 100.0)`, as a function of the base. -/
def REFERENCETOL (BASICTOL : ℚ) : ℚ := (BASICTOL * 100.0)

/-- `#define VOLUMETOL 1e-14` (not in use anymore). -/
def VOLUMETOL : ℚ := 1e-14

/-- `#define PARALLEL_COORD_TOL 1e-10` -/
def PARALLEL_COORD_TOL : ℚ := 1e-10

/-- `#define PLANARTOL 1e-6` -/
def PLANARTOL : ℚ := 1e-6

/-- `#define BOXOVERLAP 1e-7` -/
def BOXOVERLAP : ℚ := 1e-7

/-- `#define TOL_POINTS_ON_LINE 1e-14` -/
def TOL_POINTS_ON_LINE : ℚ := 1e-14

/-- `#define TOL_POINTS_ON_LINE_FOR_DELETING 1e-11` -/
def TOL_POINTS_ON_LINE_FOR_DELETING : ℚ := 1e-11

/-- `#define TOL_EQN_PLANE 1e-12` -/
def TOL_EQN_PLANE : ℚ := 1e-12

/-- `#define TOL_LINE_NORMAL 1e-12` -/
def TOL_LINE_NORMAL : ℚ := 1e-12

/-- `#define REF_PLANE_DIRDIV 1e-3` -/
def REF_PLANE_DIRDIV : ℚ := 1e-3

/-- `#define REF_VOL_DIRDIV 1e-6` -/
def REF_VOL_DIRDIV : ℚ := 1e-6

/-- `#define SELF_CUT_POS_TOL 1e-8` -/
def SELF_CUT_POS_TOL : ℚ := 1e-8

/-- `#define REF_AREA_BCELL 1e-13` -/
def REF_AREA_BCELL : ℚ := 1e-13

/-- `#define JAC_LINE_TOL 1e-14` -/
def JAC_LINE_TOL : ℚ := 1e-14

/-- `#define DIRECTDIV_GAUSSRULE 7` -/
def DIRECTDIV_GAUSSRULE : Nat := 7

/-- `#define CLN_LIMIT_ERROR 1e-20`: limiting error, until which precision
will be increased. -/
def CLN_LIMIT_ERROR : ℚ := 1e-20

/-- `#define DOUBLE_LIMIT_ERROR (4 * 1e-15)`: limiting error after which
double will be switched to cln. -/
def DOUBLE_LIMIT_ERROR : ℚ := (4 * 1e-15)

/-- `#define DOUBLE_PLUS_CLN_COMPUTE true` -/
def DOUBLE_PLUS_CLN_COMPUTE : Bool := true

/-- `#define SIDE_DETECTION_TOLERANCE 1e-14` -/
def SIDE_DETECTION_TOLERANCE : ℚ := 1e-14

/-- `#define INSIDE_OUTSIDE_TOLERANCE 0.0` -/
def INSIDE_OUTSIDE_TOLERANCE : ℚ := 0.0

/-- `#define MERGING_TOLERANCE 1e-14` -/
def MERGING_TOLERANCE : ℚ := 1e-14

/-- `#define NON_TOPOLOGICAL_TOLERANCE 1e-14` -/
def NON_TOPOLOGICAL_TOLERANCE : ℚ := 1e-14

/-- `#define TOPOLOGICAL_TOLERANCE 1e-14` -/
def TOPOLOGICAL_TOLERANCE : ℚ := 1e-14

/-- `#define EDGE_EDGE_TOLERANCE 1e-14` -/
def EDGE_EDGE_TOLERANCE : ℚ := 1e-14

/-- `#define MINIMUM_DOUBLE_ERROR 1e-16` -/
def MINIMUM_DOUBLE_ERROR : ℚ := 1e-16

/-- `#define NODAL_POINT_TOLERANCE_SCALE 5.0` -/
def NODAL_POINT_TOLERANCE_SCALE : ℚ := 5.0

/-- `#define NODAL_POINT_TOLERANCE_SELFCUT_SCALE 2.5` -/
def NODAL_POINT_TOLERANCE_SELFCUT_SCALE : ℚ := 2.5

/-- `#define MINIMUM_VOLUME_BB_FACETS 1e-13` -/
def MINIMUM_VOLUME_BB_FACETS : ℚ := 1e-13

/-- `#define AREA_BC_TOL 1e-12` -/
def AREA_BC_TOL : ℚ := 1e-12

/-- `#define VOLUME_ERROR_TOL 1e-2`: allowed error if volume tests. -/
def VOLUME_ERROR_TOL : ℚ := 1e-2

/-- `#define END_NODE_SHIFT_DISTANCE 1e-15` -/
def END_NODE_SHIFT_DISTANCE : ℚ := 1e-15

/-- The tolerances of the header that the cut-cell core reads, as one record.
(`LINSOLVETOL` divides by `sqrt(3)` and has no rational value; it is left
out.) -/
structure ToleranceTable where
  BASICTOL : ℚ
  POSITIONTOL : ℚ
  REFERENCETOL : ℚ
  PARALLEL_COORD_TOL : ℚ
  PLANARTOL : ℚ
  TOL_POINTS_ON_LINE : ℚ
  REF_PLANE_DIRDIV : ℚ
  REF_VOL_DIRDIV : ℚ
  CLN_LIMIT_ERROR : ℚ
  DOUBLE_LIMIT_ERROR : ℚ
  SIDE_DETECTION_TOLERANCE : ℚ
  MINIMUM_VOLUME_BB_FACETS : ℚ
  VOLUME_ERROR_TOL : ℚ
deriving DecidableEq

/-- The table the header yields when line 13 reads `#define BASICTOL b`:
every other `#define` is expanded as written, so only the macros whose body
mentions `BASICTOL` follow `b`. -/
def toleranceTable (b : ℚ) : ToleranceTable where
  BASICTOL := b
  POSITIONTOL := POSITIONTOL b
  REFERENCETOL := REFERENCETOL b
  PARALLEL_COORD_TOL := PARALLEL_COORD_TOL
  PLANARTOL := PLANARTOL
  TOL_POINTS_ON_LINE := TOL_POINTS_ON_LINE
  REF_PLANE_DIRDIV := REF_PLANE_DIRDIV
  REF_VOL_DIRDIV := REF_VOL_DIRDIV
  CLN_LIMIT_ERROR := CLN_LIMIT_ERROR
  DOUBLE_LIMIT_ERROR := DOUBLE_LIMIT_ERROR
  SIDE_DETECTION_TOLERANCE := SIDE_DETECTION_TOLERANCE
  MINIMUM_VOLUME_BB_FACETS := MINIMUM_VOLUME_BB_FACETS
  VOLUME_ERROR_TOL := VOLUME_ERROR_TOL

/-! ## Geometric primitives

The classes `Point`, `Facet`, `Side`, `IntegrationCell`, `BoundaryCell` and
`Core::FE::GaussPoints` are declared in headers outside the sources at hand;
`VolumeCell` only holds and hands out references to them. -/

/-- A `Core::LinAlg::Matrix<3, 1>`: three coordinates. -/
structure Vec3 where
  x : ℚ
  y : ℚ
  z : ℚ
deriving DecidableEq

/-- Modelled from the spec: a point is "global coordinates (3 doubles), a
stable identifier, and the tolerance class under which it was created"
(class `Point`, declared outside the sources). -/
structure Point where
  pid : Nat
  x : Vec3
  tolerance : ℚ
deriving DecidableEq

/-- Modelled from the spec: "position classification ∈ {inside, outside,
undecided}" (`Cut::Point::PointPosition`, declared outside the sources). -/
inductive PointPosition where
  | undecided
  | inside
  | outside
deriving DecidableEq

/-- Modelled from the spec: a facet is "an ordered, closed loop of Point
references, a plane equation (a,b,c,d) fitted to those points, a reference to
the cut Side it bounds (or null if an element-boundary facet)" (class
`Facet`, declared outside the sources). A `Side*` is the side's number. -/
structure Facet where
  points : List Point
  eqn_plane : List ℚ
  parentside : Option Nat
deriving DecidableEq

/-- Modelled from the spec: `Facet::is_cut_side(Side*)`, true when the facet
bounds the given cut side. -/
def Facet.is_cut_side (f : Facet) (s : Nat) : Bool :=
  decide (f.parentside = some s)

/-- Modelled from the spec: the simple shapes of integration and boundary
cells, "segment, triangle, quad, tetrahedron, wedge, pyramid, hexahedron"
(and the single point of `new_point1_cell`). -/
inductive CellType where
  | point1
  | line2
  | tri3
  | quad4
  | tet4
  | wedge6
  | pyramid5
  | hex8
deriving DecidableEq

/-- Modelled from the spec: an integration cell is a simple-shape record
"holding their corner Points" (class `IntegrationCell`, declared outside the
sources). -/
structure IntegrationCell where
  shape : CellType
  points : List Point
deriving DecidableEq

/-- Modelled from the spec: a boundary cell holds its corner points and
records "the originating Facet/Side" (class `BoundaryCell`, declared outside
the sources). -/
structure BoundaryCell where
  shape : CellType
  points : List Point
  facet : Facet
deriving DecidableEq

/-- Modelled from the spec: a quadrature rule is an "ordered list of (local
coordinate, weight) pairs" (`Core::FE::GaussPoints`, declared outside the
sources). -/
structure GaussPoints where
  rule : List (Vec3 × ℚ)
deriving DecidableEq

/-- Number of points of a rule (`GaussPoints::num_points`). -/
def GaussPoints.num_points (gp : GaussPoints) : Nat := gp.rule.length

/-! ## `VolumeCell` (`4C_cut_volumecell.hpp`) -/

/-- The data members of `class VolumeCell` (lines 357-406), in declaration
order. A `std::shared_ptr<GaussPoints>` is `none` when null and otherwise
the rule it points to. -/
structure VolumeCell where
  /-- The element this is a part of (`Element* element_`). -/
  element_ : Nat
  /-- Position relative to cut surface. -/
  position_ : PointPosition
  /-- Defining facets. -/
  facets_ : List Facet
  /-- Volume preserving simple shaped cells. -/
  integrationcells_ : List IntegrationCell
  /-- Boundary cells at cut surface with outward normals. -/
  bcells_ : List BoundaryCell
  /-- Dof set number of all element nodes. -/
  nodaldofset_ : List Int
  /-- Point ids of a volume cell. -/
  vcpoints_ids_ : List Int
  /-- Volume of this volumecell. -/
  volume_ : ℚ
  /-- True if this volumecell is negligibly small (used only in
  DirectDivergence method). -/
  is_negligible_small_ : Bool
  weights_ : List ℚ
  gauss_pts_ : List (List ℚ)
  bcellweights_ : List ℚ
  bcellgaus_pts_ : List (List ℚ)
  /-- Equation of plane which contains the reference facet when using
  DirectDivergence. -/
  ref_eqn_plane_ : List ℚ
  /-- Gauss rule for this volumecell. -/
  gp_ : Option GaussPoints
  /-- Is this volumecell currently in a process of position definition? -/
  is_volumecell_pos_processed_ : Bool
deriving DecidableEq

namespace VolumeCell

/-- `Element* parent_element() { return element_; }` -/
def parent_element (vc : VolumeCell) : Nat × VolumeCell := (vc.element_, vc)

/-- `Cut::Point::PointPosition position() const { return position_; }` -/
def position (vc : VolumeCell) : PointPosition := vc.position_

/-- `const plain_facet_set& facets() const { return facets_; }` -/
def facets (vc : VolumeCell) : List Facet := vc.facets_

/-- The loop of `is_cut`: the first facet with `is_cut_side(s)` answers
`true`, the end of the set answers `false`. -/
def is_cut_loop (s : Nat) : List Facet → Bool
  | [] => false
  | fac :: rest => if fac.is_cut_side s then true else is_cut_loop s rest

/-- `bool is_cut(Side* s)` (lines 144-151). -/
def is_cut (vc : VolumeCell) (s : Nat) : Bool × VolumeCell :=
  (is_cut_loop s vc.facets_, vc)

/-- `const plain_integrationcell_set& integration_cells() const` -/
def integration_cells (vc : VolumeCell) : List IntegrationCell :=
  vc.integrationcells_

/-- `const plain_boundarycell_set& boundary_cells() const` -/
def boundary_cells (vc : VolumeCell) : List BoundaryCell := vc.bcells_

/-- `bool empty() const
{ return integrationcells_.size() == 0 and bcells_.size() == 0; }` -/
def empty (vc : VolumeCell) : Bool :=
  vc.integrationcells_.length == 0 && vc.bcells_.length == 0

/-- `const std::vector<int>& nodal_dof_set() const { return nodaldofset_; }` -/
def nodal_dof_set (vc : VolumeCell) : List Int := vc.nodaldofset_

/-- `void set_nodal_dof_set(const std::vector<int>& nds)` (lines 169-173):
clear `nodaldofset_`, then copy `nds` to its end. -/
def set_nodal_dof_set (vc : VolumeCell) (nds : List Int) : VolumeCell :=
  let cleared := { vc with nodaldofset_ := [] }
  { cleared with nodaldofset_ := cleared.nodaldofset_ ++ nds }

/-- `double volume() { return volume_; }` -/
def volume (vc : VolumeCell) : ℚ × VolumeCell := (vc.volume_, vc)

/-- `std::shared_ptr<Core::FE::GaussPoints> get_gauss_rule() { return gp_; }` -/
def get_gauss_rule (vc : VolumeCell) : Option GaussPoints × VolumeCell :=
  (vc.gp_, vc)

/-- `void set_gauss_rule(std::shared_ptr<Core::FE::GaussPoints> gps)
{ gp_ = gps; }` -/
def set_gauss_rule (vc : VolumeCell) (gps : Option GaussPoints) : VolumeCell :=
  { vc with gp_ := gps }

/-- `void set_volume(const double vol) { volume_ = vol; }` -/
def set_volume (vc : VolumeCell) (vol : ℚ) : VolumeCell :=
  { vc with volume_ := vol }

/-- `const std::vector<double>& get_ref_eqn_plane() { return ref_eqn_plane_; }` -/
def get_ref_eqn_plane (vc : VolumeCell) : List ℚ × VolumeCell :=
  (vc.ref_eqn_plane_, vc)

/-- `bool is_negligibly_small() { return this->is_negligible_small_; }` -/
def is_negligibly_small (vc : VolumeCell) : Bool × VolumeCell :=
  (vc.is_negligible_small_, vc)

end VolumeCell

/-- A quadrature rule handed out by a cell is empty when the pointer is null
or the rule has no point. -/
def ruleIsEmpty : Option GaussPoints → Bool
  | none => true
  | some gp => gp.num_points == 0

/-- The member functions of `VolumeCell` whose bodies are in the header: the
three setters and the read accessors. -/
inductive InlineCall where
  | set_volume (vol : ℚ)
  | set_gauss_rule (gps : Option GaussPoints)
  | set_nodal_dof_set (nds : List Int)
  | parent_element
  | position
  | facets
  | is_cut (s : Nat)
  | integration_cells
  | boundary_cells
  | empty
  | nodal_dof_set
  | volume
  | get_gauss_rule
  | get_ref_eqn_plane
  | is_negligibly_small

/-- The cell after one call of an inline member function. A `const` member
cannot write to the cell; the others hand back the cell their body leaves. -/
def InlineCall.run : InlineCall → VolumeCell → VolumeCell
  | .set_volume vol, vc => vc.set_volume vol
  | .set_gauss_rule gps, vc => vc.set_gauss_rule gps
  | .set_nodal_dof_set nds, vc => vc.set_nodal_dof_set nds
  | .parent_element, vc => vc.parent_element.2
  | .position, vc => vc
  | .facets, vc => vc
  | .is_cut s, vc => (vc.is_cut s).2
  | .integration_cells, vc => vc
  | .boundary_cells, vc => vc
  | .empty, vc => vc
  | .nodal_dof_set, vc => vc
  | .volume, vc => vc.volume.2
  | .get_gauss_rule, vc => vc.get_gauss_rule.2
  | .get_ref_eqn_plane, vc => vc.get_ref_eqn_plane.2
  | .is_negligibly_small, vc => vc.is_negligibly_small.2

/-- The cell after a sequence of calls, first call first. -/
def runCalls : List InlineCall → VolumeCell → VolumeCell
  | [], vc => vc
  | c :: cs, vc => runCalls cs (c.run vc)

/-- Whether a call is `set_gauss_rule`. -/
def InlineCall.isSetGaussRule : InlineCall → Bool
  | .set_gauss_rule _ => true
  | _ => false

/-- The negligible-cell policy read as a property of one cell state: a stored
volume below `REF_VOL_DIRDIV` comes with `is_negligibly_small()`, and
`is_negligibly_small()` comes with an empty quadrature rule. -/
def negligiblePolicy (vc : VolumeCell) : Prop :=
  (vc.volume.1 < REF_VOL_DIRDIV → vc.is_negligibly_small.1 = true)
  ∧ (vc.is_negligibly_small.1 = true → ruleIsEmpty vc.get_gauss_rule.1 = true)

/-- The policy can be checked on any given cell. -/
instance negligiblePolicyDecidable (vc : VolumeCell) : Decidable (negligiblePolicy vc) := by
  unfold negligiblePolicy; infer_instance

/-- A cell as the tessellation leaves it: volume one, not negligible, no
quadrature rule attached. -/
def plainCell : VolumeCell where
  element_ := 1
  position_ := PointPosition.outside
  facets_ := []
  integrationcells_ := []
  bcells_ := []
  nodaldofset_ := []
  vcpoints_ids_ := []
  volume_ := 1
  is_negligible_small_ := false
  weights_ := []
  gauss_pts_ := []
  bcellweights_ := []
  bcellgaus_pts_ := []
  ref_eqn_plane_ := []
  gp_ := none
  is_volumecell_pos_processed_ := false

/-- A cell flagged negligible: volume zero, flag set, no quadrature rule. -/
def flatCell : VolumeCell :=
  { plainCell with volume_ := 0, is_negligible_small_ := true }

/-- A rule of one point with weight one. -/
def onePointRule : GaussPoints where
  rule := [(⟨0, 0, 0⟩, 1)]

/-! ## Out-of-line members of `VolumeCell`

`contains` and `is_this_point_inside` are declared in the header and defined
in the implementation file, which is not among the sources. What the header
fixes is their signature and their documentation. -/

/-- Modelled from the spec: the "plane-equation coefficient multiplying the
dependent (divided) variable" of a facet; the tolerance header names it the
coefficient `a` of `ax+by+cz=d` (lines 63-66), the first entry of the plane
equation. -/
def Facet.dividedCoefficient (f : Facet) : ℚ := f.eqn_plane.headD 0

/-- Modelled from the spec: one step of the reference-plane search keeps the
facet found so far unless the next one has a strictly larger absolute
coefficient. -/
def betterRefFacet (best next : Facet) : Facet :=
  if |best.dividedCoefficient| < |next.dividedCoefficient| then next else best

/-- Modelled from the spec: the reference-plane selection rule of the
DirectDivergence builder, "choose the facet whose plane-equation coefficient
multiplying the dependent (divided) variable has the largest absolute value
among all facets". The builder itself (`direct_divergence_gauss_rule`, line
94) is defined outside the sources. -/
def selectRefFacet : List Facet → Option Facet
  | [] => none
  | f :: rest => some (rest.foldl betterRefFacet f)

/-- Modelled from the spec: the part of `direct_divergence_gauss_rule` that
"stores the chosen reference-plane equation" in `ref_eqn_plane_`; a cell
without facets keeps what it had. -/
def VolumeCell.direct_divergence_ref_plane (vc : VolumeCell) : VolumeCell :=
  match selectRefFacet vc.facets_ with
  | none => vc
  | some f => { vc with ref_eqn_plane_ := f.eqn_plane }

/-- A facet with the given plane equation and no points. -/
def planeFacet (eqn : List ℚ) : Facet where
  points := []
  eqn_plane := eqn
  parentside := none

/-- A cell with three facets whose `a` coefficients are `0`, `-1` and `1/2`. -/
def threeFacetCell : VolumeCell :=
  { plainCell with
    facets_ := [planeFacet [0, 0, 1, 0], planeFacet [-1, 0, 0, 0], planeFacet [1/2, 1, 0, 1]] }

/-! ## Tessellation: integration cells and volumes -/

namespace Vec3

/-- Difference of two coordinate triples. -/
def sub (a b : Vec3) : Vec3 := ⟨a.x - b.x, a.y - b.y, a.z - b.z⟩

/-- Sum of two coordinate triples. -/
def add (a b : Vec3) : Vec3 := ⟨a.x + b.x, a.y + b.y, a.z + b.z⟩

/-- Multiple of a coordinate triple. -/
def smul (c : ℚ) (a : Vec3) : Vec3 := ⟨c * a.x, c * a.y, c * a.z⟩

/-- Cross product. -/
def cross (a b : Vec3) : Vec3 :=
  ⟨a.y * b.z - a.z * b.y, a.z * b.x - a.x * b.z, a.x * b.y - a.y * b.x⟩

/-- Scalar product. -/
def dot (a b : Vec3) : ℚ := a.x * b.x + a.y * b.y + a.z * b.z

end Vec3

/-- Determinant of the matrix with columns `a`, `b`, `c`. -/
def det3 (a b c : Vec3) : ℚ := a.dot (b.cross c)

/-- Sum of a list of coordinate triples. -/
def sumVec : List Vec3 → Vec3
  | [] => ⟨0, 0, 0⟩
  | v :: vs => v.add (sumVec vs)

/-- The triangles of a fan around `p0`: `(p0, prev, q1), (p0, q1, q2), ...`
for the remaining points `q1, q2, ...` of the loop. -/
def fanTriangles (p0 : Point) : Point → List Point → List (Point × Point × Point)
  | _, [] => []
  | prev, q :: rest => (p0, prev, q) :: fanTriangles p0 q rest

/-- Modelled from the spec: the tessellation "splits every facet into
triangles"; the loop `p0, p1, ..., pn` is split into the fan
`(p0, p1, p2), ..., (p0, p(n-1), pn)`. A loop of fewer than three points has
no triangle. -/
def splitFacet (f : Facet) : List (Point × Point × Point) :=
  match f.points with
  | p0 :: p1 :: rest => fanTriangles p0 p1 rest
  | _ => []

/-- The tetrahedron over a facet triangle with the apex as first corner. -/
def apexTet (apex : Point) (t : Point × Point × Point) : IntegrationCell where
  shape := CellType.tet4
  points := [apex, t.1, t.2.1, t.2.2]

/-- Modelled from the spec: "the resulting facet triangles plus an interior
apex point into tetrahedra": one tet4 integration cell per facet triangle. -/
def tessellationCells (apex : Point) : List Facet → List IntegrationCell
  | [] => []
  | f :: fs => (splitFacet f).map (apexTet apex) ++ tessellationCells apex fs

/-- Modelled from the spec: the volume of a tet4 integration cell is the
Jacobian determinant of the map from the reference tetrahedron (whose volume
is `1/6`) onto its corner points; the simplex rule is "scaled by that
simplex's Jacobian determinant", sign included. The tessellation creates no
other shape. -/
def IntegrationCell.volume (ic : IntegrationCell) : ℚ :=
  match ic.shape, ic.points with
  | CellType.tet4, [p0, p1, p2, p3] =>
      det3 (p1.x.sub p0.x) (p2.x.sub p0.x) (p3.x.sub p0.x) / 6
  | _, _ => 0

/-- Sum of the volumes of a set of integration cells. -/
def sumVolumes (cells : List IntegrationCell) : ℚ :=
  (cells.map IntegrationCell.volume).sum

/-- Modelled from the spec: the Tessellation builder fills the cell's
integration cells and its volume, a "derived scalar" that "equals the sum of
its IntegrationCells' volumes"; the volume is stored through `set_volume`. -/
def VolumeCell.tessellation (vc : VolumeCell) (apex : Point) : VolumeCell :=
  let cells := tessellationCells apex vc.facets_
  ({ vc with integrationcells_ := cells }).set_volume (sumVolumes cells)

/-- The directed edges `(cur, q1), (q1, q2), ..., (qn, first)` of the path
from `cur` through the remaining points back to `first`. -/
def pathEdges {α : Type} (first : α) : α → List α → List (α × α)
  | cur, [] => [(cur, first)]
  | cur, q :: rest => (cur, q) :: pathEdges first q rest

/-- The directed edges of a closed loop of points. -/
def loopEdges {α : Type} : List α → List (α × α)
  | [] => []
  | p0 :: rest => pathEdges p0 p0 rest

/-- The determinant of `c` with the two end points of an edge. -/
def edgeDet (c : Vec3) (e : Point × Point) : ℚ := det3 c e.1.x e.2.x

/-- The area vector of a facet (unit normal times area), by the shoelace
formula: half the sum of `p × q` over the directed edges `(p, q)` of the
loop. -/
def Facet.areaVector (f : Facet) : Vec3 :=
  Vec3.smul (1 / 2) (sumVec ((loopEdges f.points).map fun e => e.1.x.cross e.2.x))

/-- The share of one planar facet in the volume of a polyhedron by the
divergence theorem: `(x · n) * area / 3` with `x` any point of the facet. -/
def Facet.volumeShare (f : Facet) : ℚ :=
  match f.points with
  | [] => 0
  | p0 :: _ => p0.x.dot f.areaVector / 3

/-- The exact volume of the polyhedron bounded by outward oriented planar
facets: the divergence theorem applied to the field `x / 3`. -/
def polyhedronVolume (facets : List Facet) : ℚ :=
  (facets.map Facet.volumeShare).sum

/-- All directed edges of the facet loops of a cell. -/
def boundaryEdges : List Facet → List (Point × Point)
  | [] => []
  | f :: fs => loopEdges f.points ++ boundaryEdges fs

/-- "The facet set forms a closed, outward-consistently-oriented boundary":
every directed edge of a facet loop is matched by the reversed edge of the
neighbouring facet, so reversing all edges permutes them. -/
def closedSurface (facets : List Facet) : Prop :=
  (boundaryEdges facets).Perm ((boundaryEdges facets).map Prod.swap)

/-- Closedness can be checked on any given facet set. -/
instance closedSurfaceDecidable (facets : List Facet) : Decidable (closedSurface facets) := by
  unfold closedSurface; infer_instance

/-- A point with the given number and coordinates. -/
def mkPoint (pid : Nat) (x y z : ℚ) : Point where
  pid := pid
  x := ⟨x, y, z⟩
  tolerance := 0

/-- An element-boundary or cut facet through the given points. -/
def loopFacet (points : List Point) (side : Option Nat) : Facet where
  points := points
  eqn_plane := []
  parentside := side

/-- The corners of the six faces of a hexahedron, each loop counter-clockwise
seen from outside: bottom, top and the four walls. -/
def hexFaces : List (List Nat) :=
  [[0, 3, 2, 1], [4, 5, 6, 7], [0, 4, 7, 3], [1, 2, 6, 5], [0, 1, 5, 4], [3, 7, 6, 2]]

/-- Corner `i` of the box `[0,1] x [0,1] x [z0,z1]`: corners 0-3 at height
`z0`, corners 4-7 above them at height `z1`; the point numbers start at
`first`. -/
def boxCorner (z0 z1 : ℚ) (first : Nat) (i : Nat) : Point :=
  match i with
  | 0 => mkPoint first 0 0 z0
  | 1 => mkPoint (first + 1) 1 0 z0
  | 2 => mkPoint (first + 2) 1 1 z0
  | 3 => mkPoint (first + 3) 0 1 z0
  | 4 => mkPoint (first + 4) 0 0 z1
  | 5 => mkPoint (first + 5) 1 0 z1
  | 6 => mkPoint (first + 6) 1 1 z1
  | _ => mkPoint (first + 7) 0 1 z1

/-- The six outward oriented facets of the box `[0,1] x [0,1] x [z0,z1]`. -/
def boxFacets (z0 z1 : ℚ) (first : Nat) : List Facet :=
  hexFaces.map fun face => loopFacet (face.map (boxCorner z0 z1 first)) none

/-- The directed edges of the six faces of a hexahedron, by corner number. -/
def hexEdges : List (Nat × Nat) := (hexFaces.map loopEdges).flatten

/-- The unit cube cut by the plane `z = 0.5`, lower cell: points 0-7. -/
def lowerHalfCube : VolumeCell :=
  { plainCell with facets_ := boxFacets 0 (1 / 2) 0, volume_ := 0 }

/-- The unit cube cut by the plane `z = 0.5`, upper cell: points 4-11, the
lower four being the cut points it shares with the lower cell. -/
def upperHalfCube : VolumeCell :=
  { plainCell with facets_ := boxFacets (1 / 2) 1 4, volume_ := 0 }

/-! ## Precision escalation

The escalation loop lives in the cut kernel, outside the sources; the
tolerance header only fixes `DOUBLE_LIMIT_ERROR` and `CLN_LIMIT_ERROR`. -/

/-- Modelled from the spec: what a geometric predicate reports, the accepted
value together with the number of precision increases it took (none when the
double result is accepted), or `InsufficientPrecision`. -/
inductive PredicateOutcome where
  | resolved (value : ℚ) (increases : Nat)
  | insufficientPrecision (increases : Nat)
deriving DecidableEq

/-- Modelled from the spec: a result is in "the ambiguous band" when its
magnitude is neither below `DOUBLE_LIMIT_ERROR` ("below which double
precision is trusted") nor above the looser bound ("above which it is also
trusted"). -/
def ambiguous (looser r : ℚ) : Bool :=
  decide (DOUBLE_LIMIT_ERROR ≤ |r| ∧ |r| ≤ looser)

/-- Modelled from the spec: the escalation loop of a predicate. `compute k`
is the predicate's result after `k` precision increases, `compute 0` being
the double evaluation. The result is accepted as soon as it is outside the
ambiguous band; otherwise "the same predicate is recomputed using an
arbitrary-precision numeric representation until the result either
stabilizes outside the ambiguous band or a fixed retry/precision-increase
ceiling is reached, at which point the predicate reports
InsufficientPrecision". `fuel` counts the evaluations the loop may still
make; `none` means the loop was cut off while still running. -/
def escalationLoop (compute : Nat → ℚ) (looser : ℚ) (ceiling : Nat) :
    Nat → Nat → Option PredicateOutcome
  | 0, _ => none
  | fuel + 1, k =>
    if ambiguous looser (compute k) = false then
      some (PredicateOutcome.resolved (compute k) k)
    else if ceiling ≤ k then
      some (PredicateOutcome.insufficientPrecision k)
    else
      escalationLoop compute looser ceiling fuel (k + 1)

/-- What the loop started after `k` precision increases may report: a value
computed after `j` increases, `k ≤ j ≤ ceiling`, that is outside the
ambiguous band while every earlier result was inside, or
`InsufficientPrecision` at the ceiling with every result inside the band. -/
def outcomeFrom (compute : Nat → ℚ) (looser : ℚ) (ceiling k : Nat) : PredicateOutcome → Prop
  | PredicateOutcome.resolved r j =>
      k ≤ j ∧ j ≤ ceiling ∧ r = compute j ∧ ambiguous looser r = false
      ∧ ∀ i, k ≤ i → i < j → ambiguous looser (compute i) = true
  | PredicateOutcome.insufficientPrecision j =>
      j = ceiling ∧ ∀ i, k ≤ i → i ≤ ceiling → ambiguous looser (compute i) = true

end Cut

/-! # Geometry pair element types (`src/geometry_pair/4C_geometry_pair_element.hpp`)

The header computes everything at compile time: a class template with its
static members, the type aliases built from it and the trait structs
specialised on those aliases. A template instance is the record of its
template arguments, a static member a function of that record.

An `unsigned int` is a natural number below `2 ^ 32`; products of
`unsigned int` are reduced modulo `2 ^ 32`, as the language prescribes. -/

namespace GEOMETRYPAIR

/-- The cell types `Core::FE::CellType::...` that the header names. The
enumeration itself is declared outside the sources. -/
inductive CellType where
  | line2
  | line3
  | line4
  | tri3
  | tri6
  | quad4
  | quad8
  | quad9
  | nurbs9
  | hex8
  | hex20
  | hex27
  | tet4
  | tet10
  | nurbs27
  | wedge6
deriving DecidableEq

/-- `Core::FE::num_nodes<discretization>`, declared outside the sources: the
number of nodes of a cell type, which is the number its name ends in. -/
def num_nodes : CellType → Nat
  | CellType.line2 => 2
  | CellType.line3 => 3
  | CellType.line4 => 4
  | CellType.tri3 => 3
  | CellType.tri6 => 6
  | CellType.quad4 => 4
  | CellType.quad8 => 8
  | CellType.quad9 => 9
  | CellType.nurbs9 => 9
  | CellType.hex8 => 8
  | CellType.hex20 => 20
  | CellType.hex27 => 27
  | CellType.tet4 => 4
  | CellType.tet10 => 10
  | CellType.nurbs27 => 27
  | CellType.wedge6 => 6

/-- `enum class DiscretizationTypeGeometry` (lines 31-46). -/
inductive DiscretizationTypeGeometry where
  | none
  | line
  | triangle
  | quad
  | hexahedron
  | tetraeder
  | wedge
deriving DecidableEq

/-- `ElementDiscretizationToGeometryType<discretization>::geometry_type_`
(lines 55-144): the primary template gives `none`, the fourteen explicit
specialisations give the geometry of their cell type. -/
def ElementDiscretizationToGeometryType : CellType → DiscretizationTypeGeometry
  | CellType.line2 => DiscretizationTypeGeometry.line
  | CellType.tri3 => DiscretizationTypeGeometry.triangle
  | CellType.tri6 => DiscretizationTypeGeometry.triangle
  | CellType.quad4 => DiscretizationTypeGeometry.quad
  | CellType.quad8 => DiscretizationTypeGeometry.quad
  | CellType.quad9 => DiscretizationTypeGeometry.quad
  | CellType.nurbs9 => DiscretizationTypeGeometry.quad
  | CellType.hex8 => DiscretizationTypeGeometry.hexahedron
  | CellType.hex20 => DiscretizationTypeGeometry.hexahedron
  | CellType.hex27 => DiscretizationTypeGeometry.hexahedron
  | CellType.tet4 => DiscretizationTypeGeometry.tetraeder
  | CellType.tet10 => DiscretizationTypeGeometry.tetraeder
  | CellType.nurbs27 => DiscretizationTypeGeometry.hexahedron
  | CellType.wedge6 => DiscretizationTypeGeometry.wedge
  | _ => DiscretizationTypeGeometry.none

/-- Product of two `unsigned int`. -/
def umul (a b : Nat) : Nat := (a * b) % 2 ^ 32

/-- An instance `ElementDiscretizationBase<discretization, values_per_node,
spatial_dim>` of the class template (lines 155-157), given by its template
arguments. -/
structure ElementDiscretizationBase where
  discretization : CellType
  values_per_node : Nat
  spatial_dim : Nat
deriving DecidableEq

/-- An instance written with two template arguments,
`ElementDiscretizationBase<discretization, values_per_node>`: the third is
the default `unsigned int spatial_dim = 3`. -/
def ElementDiscretizationBase.withDefault (discretization : CellType)
    (values_per_node : Nat) : ElementDiscretizationBase :=
  ⟨discretization, values_per_node, 3⟩

namespace ElementDiscretizationBase

/-- `static constexpr Core::FE::CellType discretization_ = discretization;` -/
def discretization_ (e : ElementDiscretizationBase) : CellType := e.discretization

/-- `static constexpr unsigned int n_val_ = values_per_node;` -/
def n_val_ (e : ElementDiscretizationBase) : Nat := e.values_per_node

/-- `static constexpr unsigned int n_nodes_ = Core::FE::num_nodes<discretization_>;` -/
def n_nodes_ (e : ElementDiscretizationBase) : Nat := num_nodes e.discretization_

/-- `static const unsigned int spatial_dim_ = spatial_dim;` -/
def spatial_dim_ (e : ElementDiscretizationBase) : Nat := e.spatial_dim

/-- `static constexpr unsigned int n_dof_ = spatial_dim_ * n_val_ * n_nodes_;` -/
def n_dof_ (e : ElementDiscretizationBase) : Nat :=
  umul (umul e.spatial_dim_ e.n_val_) e.n_nodes_

/-- `static constexpr GEOMETRYPAIR::DiscretizationTypeGeometry geometry_type_ =
ElementDiscretizationToGeometryType<discretization_>::geometry_type_;` -/
def geometry_type_ (e : ElementDiscretizationBase) : DiscretizationTypeGeometry :=
  ElementDiscretizationToGeometryType e.discretization_

end ElementDiscretizationBase

/-! ### The element type aliases (lines 188-210) -/

/-- `using t_hermite = ElementDiscretizationBase<Core::FE::CellType::line2, 2>;` -/
def t_hermite : ElementDiscretizationBase := .withDefault CellType.line2 2

/-- `using t_line2 = ElementDiscretizationBase<Core::FE::CellType::line2, 1>;` -/
def t_line2 : ElementDiscretizationBase := .withDefault CellType.line2 1

/-- `using t_line2_scalar = ElementDiscretizationBase<Core::FE::CellType::line2, 1, 1>;` -/
def t_line2_scalar : ElementDiscretizationBase := ⟨CellType.line2, 1, 1⟩

/-- `using t_line3 = ElementDiscretizationBase<Core::FE::CellType::line3, 1>;` -/
def t_line3 : ElementDiscretizationBase := .withDefault CellType.line3 1

/-- `using t_line4 = ElementDiscretizationBase<Core::FE::CellType::line4, 1>;` -/
def t_line4 : ElementDiscretizationBase := .withDefault CellType.line4 1

/-- `using t_tri3 = ElementDiscretizationBase<Core::FE::CellType::tri3, 1>;` -/
def t_tri3 : ElementDiscretizationBase := .withDefault CellType.tri3 1

/-- `using t_tri6 = ElementDiscretizationBase<Core::FE::CellType::tri6, 1>;` -/
def t_tri6 : ElementDiscretizationBase := .withDefault CellType.tri6 1

/-- `using t_quad4 = ElementDiscretizationBase<Core::FE::CellType::quad4, 1>;` -/
def t_quad4 : ElementDiscretizationBase := .withDefault CellType.quad4 1

/-- `using t_quad8 = ElementDiscretizationBase<Core::FE::CellType::quad8, 1>;` -/
def t_quad8 : ElementDiscretizationBase := .withDefault CellType.quad8 1

/-- `using t_quad9 = ElementDiscretizationBase<Core::FE::CellType::quad9, 1>;` -/
def t_quad9 : ElementDiscretizationBase := .withDefault CellType.quad9 1

/-- `using t_nurbs9 = ElementDiscretizationBase<Core::FE::CellType::nurbs9, 1>;` -/
def t_nurbs9 : ElementDiscretizationBase := .withDefault CellType.nurbs9 1

/-- `using t_hex8 = ElementDiscretizationBase<Core::FE::CellType::hex8, 1>;` -/
def t_hex8 : ElementDiscretizationBase := .withDefault CellType.hex8 1

/-- `using t_hex20 = ElementDiscretizationBase<Core::FE::CellType::hex20, 1>;` -/
def t_hex20 : ElementDiscretizationBase := .withDefault CellType.hex20 1

/-- `using t_hex27 = ElementDiscretizationBase<Core::FE::CellType::hex27, 1>;` -/
def t_hex27 : ElementDiscretizationBase := .withDefault CellType.hex27 1

/-- `using t_tet4 = ElementDiscretizationBase<Core::FE::CellType::tet4, 1>;` -/
def t_tet4 : ElementDiscretizationBase := .withDefault CellType.tet4 1

/-- `using t_tet10 = ElementDiscretizationBase<Core::FE::CellType::tet10, 1>;` -/
def t_tet10 : ElementDiscretizationBase := .withDefault CellType.tet10 1

/-- `using t_nurbs27 = ElementDiscretizationBase<Core::FE::CellType::nurbs27, 1>;` -/
def t_nurbs27 : ElementDiscretizationBase := .withDefault CellType.nurbs27 1

/-- `using t_wedge6 = ElementDiscretizationBase<Core::FE::CellType::wedge6, 1>;` -/
def t_wedge6 : ElementDiscretizationBase := .withDefault CellType.wedge6 1

/-- The eighteen aliases, in the order of the header. -/
def declaredAliases : List ElementDiscretizationBase :=
  [t_hermite, t_line2, t_line2_scalar, t_line3, t_line4,
   t_tri3, t_tri6, t_quad4, t_quad8, t_quad9, t_nurbs9,
   t_hex8, t_hex20, t_hex27, t_tet4, t_tet10, t_nurbs27, t_wedge6]

end GEOMETRYPAIR

/-! # Implicit thermal time integration (`src/thermo/4C_thermo_timint_impl.cpp`)

The Newton loop of `Thermo::TimIntImpl`, its convergence check and the
control of the time step size. The state holds the scalar members these
functions read and write; the solution vectors, the linear solver and all
screen and file output are left out.

An `int` is an integer in `[-2 ^ 31, 2 ^ 31)`. Signed overflow is undefined
behaviour in C++; the model takes the two's-complement result (`wrapInt`),
and the statements say where they need the absence of overflow. A `double`
is an exact rational. -/

namespace Thermo

/-- The largest `int`. -/
def INT_MAX : Int := 2 ^ 31 - 1

/-- The result of an `int` operation whose exact value is `x`. -/
def wrapInt (x : Int) : Int := (x + 2 ^ 31) % 2 ^ 32 - 2 ^ 31

/-- The value fits an `int`. -/
def isInt (x : Int) : Prop := -2 ^ 31 ≤ x ∧ x < 2 ^ 31

/-- Whether a value fits an `int` can be checked. -/
instance isIntDecidable (x : Int) : Decidable (isInt x) := by
  unfold isInt; infer_instance

/-- `Inpar::Thermo::ConvNorm`, declared outside the sources: the three
enumerators `converged()` handles, and `other` for any value that reaches
the `default` label. -/
inductive ConvNorm where
  | convnorm_abs
  | convnorm_rel
  | convnorm_mix
  | other
deriving DecidableEq

/-- `Inpar::Thermo::BinaryOp`, declared outside the sources: `bop_and`,
`bop_or`, and `other` for any value that reaches the final `else`. -/
inductive BinaryOp where
  | bop_and
  | bop_or
  | other
deriving DecidableEq

/-- `Inpar::Thermo::DivContAct`, declared outside the sources: the five
enumerators that `newton_full_error_check()` and
`check_for_time_step_increase()` name. -/
inductive DivContAct where
  | divcont_stop
  | divcont_continue
  | divcont_halve_step
  | divcont_repeat_step
  | divcont_repeat_simulation
deriving DecidableEq

/-- `Inpar::Thermo::ConvergenceStatus`, declared outside the sources: the
three enumerators the file returns. -/
inductive ConvergenceStatus where
  | conv_success
  | conv_nonlin_fail
  | conv_fail_repeat
deriving DecidableEq

/-- The scalar state of a `Thermo::TimIntImpl`. The first five members belong
to the base class `TimInt`, declared outside the sources, and carry the name
of their accessor: `dt()`, `time_old()`, the target time written by
`set_timen`, `step()` and `num_step()`. The others are members initialised
by the constructor (lines 28-47). -/
structure TimIntImpl where
  dt : ℚ
  time_old : ℚ
  timen : ℚ
  step : Int
  num_step : Int
  myrank_ : Int
  normtypetempi_ : ConvNorm
  normtypefres_ : ConvNorm
  combtempifres_ : BinaryOp
  itermax_ : Int
  itermin_ : Int
  divcontype_ : DivContAct
  divcontrefinelevel_ : Int
  divcontfinesteps_ : Int
  toltempi_ : ℚ
  tolfres_ : ℚ
  iter_ : Int
  resetiter_ : Int
  normcharforce_ : ℚ
  normchartemp_ : ℚ
  normfres_ : ℚ
  normtempi_ : ℚ
deriving DecidableEq

namespace TimIntImpl

/-- `set_dt(dtnew)` of the base class: stores the time step size. -/
def set_dt (s : TimIntImpl) (dtnew : ℚ) : TimIntImpl := { s with dt := dtnew }

/-- `set_timen(time)` of the base class: stores the target time. -/
def set_timen (s : TimIntImpl) (time : ℚ) : TimIntImpl := { s with timen := time }

/-- `set_num_step(n)` of the base class: stores the number of steps. -/
def set_num_step (s : TimIntImpl) (n : Int) : TimIntImpl := { s with num_step := n }

/-- One of the two single-norm checks of `converged()`, the `switch` on the
norm type (lines 402-417 and 420-435): `norm` is the residual norm, `tol`
its tolerance, `normchar` the characteristic norm and `msg` the text of the
`default` label. -/
def singleNormConverged (normtype : ConvNorm) (norm tol normchar : ℚ) (msg : String) :
    Except String Bool :=
  match normtype with
  | ConvNorm.convnorm_abs => Except.ok (decide (norm < tol))
  | ConvNorm.convnorm_rel => Except.ok (decide (norm < max (normchar * tol) 1e-15))
  | ConvNorm.convnorm_mix =>
      Except.ok (decide (norm < tol) || decide (norm < max (normchar * tol) 1e-15))
  | ConvNorm.other => Except.error msg

/-- `bool Thermo::TimIntImpl::converged()` (lines 383-448). `FOUR_C_THROW` is
the error with its format string. -/
def converged (s : TimIntImpl) : Except String Bool :=
  if s.normcharforce_ ≤ 0.0 then
    Except.error "Characteristic force norm %g must be strictly larger than 0"
  else if s.normchartemp_ ≤ 0.0 then
    Except.error "Characteristic temperature norm %g must be strictly larger than 0"
  else
    match singleNormConverged s.normtypefres_ s.normfres_ s.tolfres_ s.normcharforce_
        "Cannot check for convergence of residual forces!" with
    | Except.error e => Except.error e
    | Except.ok convfres =>
      match singleNormConverged s.normtypetempi_ s.normtempi_ s.toltempi_ s.normchartemp_
          "Cannot check for convergence of residual temperatures!" with
      | Except.error e => Except.error e
      | Except.ok convtemp =>
        if s.combtempifres_ = BinaryOp.bop_and then Except.ok (convtemp && convfres)
        else if s.combtempifres_ = BinaryOp.bop_or then Except.ok (convtemp || convfres)
        else Except.error "Something went terribly wrong with binary operator!"

/-- `void Thermo::TimIntImpl::halve_time_step()` (lines 619-641).
`reset_step()` belongs to the base class and is defined outside the sources;
it is a parameter. -/
def halve_time_step (reset_step : TimIntImpl → TimIntImpl) (s : TimIntImpl) : TimIntImpl :=
  let old_dt := s.dt
  let new_dt := old_dt * 0.5
  let endstep := wrapInt (wrapInt (s.num_step + wrapInt (s.num_step - s.step)) + 1)
  let s := s.set_dt new_dt
  let s := s.set_timen (s.time_old + new_dt)
  let s := s.set_num_step endstep
  let s := reset_step s
  let s := { s with divcontrefinelevel_ := wrapInt (s.divcontrefinelevel_ + 1) }
  let s := { s with divcontfinesteps_ := 0 }
  { s with resetiter_ := wrapInt (s.resetiter_ + s.iter_) }

/-- `void Thermo::TimIntImpl::check_for_time_step_increase()` (lines
647-675). `%` and `/` on `int` truncate towards zero. -/
def check_for_time_step_increase (s : TimIntImpl) : TimIntImpl :=
  let maxnumfinestep : Int := 4
  if s.divcontype_ ≠ DivContAct.divcont_halve_step then s
  else if s.divcontrefinelevel_ ≠ 0 then
    let s := { s with divcontfinesteps_ := wrapInt (s.divcontfinesteps_ + 1) }
    if s.divcontfinesteps_ ≥ maxnumfinestep then
      if (wrapInt (s.num_step - s.step)).tmod 2 = 0 ∧ s.num_step ≠ s.step then
        let s := { s with divcontrefinelevel_ := wrapInt (s.divcontrefinelevel_ - 1) }
        let s := { s with divcontfinesteps_ := 0 }
        let endstep := wrapInt (s.num_step - (wrapInt (s.num_step - s.step)).tdiv 2)
        let s := s.set_num_step endstep
        s.set_dt (s.dt * 2.0)
      else s
    else s
  else s

/-- `Thermo::TimIntImpl::newton_full_error_check()` (lines 573-614): the
status returned together with the state left behind, or the error thrown.
`output(true)` writes a restart file and is left out. -/
def newton_full_error_check (reset_step : TimIntImpl → TimIntImpl) (s : TimIntImpl) :
    Except String (ConvergenceStatus × TimIntImpl) :=
  if s.iter_ ≥ s.itermax_ ∧ s.divcontype_ = DivContAct.divcont_stop then
    Except.error "Newton unconverged in %d iterations"
  else if s.iter_ ≥ s.itermax_ ∧ s.divcontype_ = DivContAct.divcont_continue then
    Except.ok (ConvergenceStatus.conv_success, s)
  else if s.iter_ ≥ s.itermax_ ∧ s.divcontype_ = DivContAct.divcont_halve_step then
    Except.ok (ConvergenceStatus.conv_fail_repeat, s.halve_time_step reset_step)
  else if s.divcontype_ = DivContAct.divcont_repeat_step
      ∨ s.divcontype_ = DivContAct.divcont_repeat_simulation then
    if s.myrank_ = 0 then
      Except.error
        ("Fatal failure in newton_full_error_check()! divcont_repeat_step and "
          ++ "divcont_repeat_simulation not implemented for Thermo")
    else Except.ok (ConvergenceStatus.conv_nonlin_fail, s)
  else
    match s.converged with
    | Except.error e => Except.error e
    | Except.ok true => Except.ok (ConvergenceStatus.conv_success, s.check_for_time_step_increase)
    | Except.ok false => Except.ok (ConvergenceStatus.conv_nonlin_fail, s)

end TimIntImpl

/-- The equilibrium loop of `newton_full()` (lines 485-543) with `converged()`
as an oracle: `conv k` is what the call of `converged()` in the loop test
answers after `k` iterations. `iter_` starts at 1, each iteration ends with
`iter_ += 1`, and after the loop `iter_ -= 1`. The result is the number of
iterations executed and the corrected `iter_`; `fuel` bounds the number of
loop tests and `none` means the loop was still running. -/
def equilibriumLoop (conv : Nat → Bool) (itermax_ itermin_ : Int) :
    Nat → Nat → Int → Option (Nat × Int)
  | 0, _, _ => none
  | fuel + 1, k, iter_ =>
    if ((!conv k) && decide (iter_ ≤ itermax_)) || decide (iter_ ≤ itermin_) then
      equilibriumLoop conv itermax_ itermin_ fuel (k + 1) (wrapInt (iter_ + 1))
    else
      some (k, wrapInt (iter_ - 1))

/-- The loop of `newton_full()` from its start, `iter_ = 1` and no iteration
done. -/
def newtonLoop (conv : Nat → Bool) (itermax_ itermin_ : Int) (fuel : Nat) :
    Option (Nat × Int) :=
  equilibriumLoop conv itermax_ itermin_ fuel 0 1

/-- A state in the middle of a run: step 3 of 10 with step size `1/10`,
absolute convergence norms combined by `and`, at most 50 Newton iterations,
both residual norms below their tolerance. -/
def sampleTimInt : TimIntImpl where
  dt := 1 / 10
  time_old := 1
  timen := 11 / 10
  step := 3
  num_step := 10
  myrank_ := 0
  normtypetempi_ := ConvNorm.convnorm_abs
  normtypefres_ := ConvNorm.convnorm_abs
  combtempifres_ := BinaryOp.bop_and
  itermax_ := 50
  itermin_ := 0
  divcontype_ := DivContAct.divcont_stop
  divcontrefinelevel_ := 0
  divcontfinesteps_ := 0
  toltempi_ := 1 / 1000
  tolfres_ := 1 / 1000
  iter_ := 2
  resetiter_ := 0
  normcharforce_ := 1
  normchartemp_ := 1
  normfres_ := 0
  normtempi_ := 0

/-- The state `newton_full()` hands to `newton_full_error_check()` when the
iteration converges in its last allowed iteration: `itermax_ = 1`, one
iteration done, residuals below tolerance, `divcont_stop`. -/
def convergedInLastIteration : TimIntImpl :=
  { sampleTimInt with itermax_ := 1, iter_ := 1 }

/-- The same state with `divcont_halve_step`. -/
def convergedInLastIterationHalve : TimIntImpl :=
  { convergedInLastIteration with divcontype_ := DivContAct.divcont_halve_step }

/-- `reset_step` leaves the members alone that `halve_time_step()` reads and
writes. -/
def keepsTimeStepping (reset_step : TimIntImpl → TimIntImpl) : Prop :=
  ∀ t : TimIntImpl,
    (reset_step t).dt = t.dt ∧ (reset_step t).time_old = t.time_old
    ∧ (reset_step t).timen = t.timen ∧ (reset_step t).step = t.step
    ∧ (reset_step t).num_step = t.num_step
    ∧ (reset_step t).divcontrefinelevel_ = t.divcontrefinelevel_
    ∧ (reset_step t).resetiter_ = t.resetiter_ ∧ (reset_step t).iter_ = t.iter_

/-- The condition under which `check_for_time_step_increase()` doubles the
step size: `divcont_halve_step`, a refinement level other than zero, at least
four fine steps after `divcontfinesteps_++`, and an even, non-zero number of
remaining steps. -/
def doublesStep (s : TimIntImpl) : Prop :=
  s.divcontype_ = DivContAct.divcont_halve_step ∧ s.divcontrefinelevel_ ≠ 0
  ∧ 4 ≤ wrapInt (s.divcontfinesteps_ + 1)
  ∧ (s.num_step - s.step) % 2 = 0 ∧ s.num_step - s.step ≠ 0

/-- The condition can be checked on any given state. -/
instance doublesStepDecidable (s : TimIntImpl) : Decidable (doublesStep s) := by
  unfold doublesStep; infer_instance

/-- A state one refinement level down with three fine steps done and six
steps to go. -/
def refinedTimInt : TimIntImpl :=
  { sampleTimInt with
    divcontype_ := DivContAct.divcont_halve_step, divcontrefinelevel_ := 1,
    divcontfinesteps_ := 3, step := 4 }

end Thermo

/-! ## Theorems -/

namespace Cut

/-- C1. In the tolerance table built on any base `b`, `POSITIONTOL` is exactly
`10 * b` and `REFERENCETOL` is exactly `100 * b`; with the shipped base
`BASICTOL = 1e-14` they are `1e-13` and `1e-12`. -/
theorem C1_position_and_reference_tolerance (b : ℚ) :
    (toleranceTable b).POSITIONTOL = 10 * (toleranceTable b).BASICTOL
    ∧ (toleranceTable b).REFERENCETOL = 100 * (toleranceTable b).BASICTOL
    ∧ BASICTOL = 1 / 10 ^ 14
    ∧ (toleranceTable BASICTOL).POSITIONTOL = 1 / 10 ^ 13
    ∧ (toleranceTable BASICTOL).REFERENCETOL = 1 / 10 ^ 12 := by
  refine ⟨?_, ?_, ?_, ?_, ?_⟩
  · simp only [toleranceTable, POSITIONTOL]; norm_num; ring
  · simp only [toleranceTable, REFERENCETOL]; norm_num; ring
  · norm_num [BASICTOL]
  · norm_num [toleranceTable, POSITIONTOL, BASICTOL]
  · norm_num [toleranceTable, REFERENCETOL, BASICTOL]

/-- C3. The absolute tolerances of the table have exactly the documented
values as rationals, on every base: `PARALLEL_COORD_TOL = 1e-10`,
`PLANARTOL = 1e-6`, `REF_VOL_DIRDIV = 1e-6`, `MINIMUM_VOLUME_BB_FACETS = 1e-13`,
`VOLUME_ERROR_TOL = 1e-2`, `REF_PLANE_DIRDIV = 1e-3`,
`DOUBLE_LIMIT_ERROR = 4e-15` and `CLN_LIMIT_ERROR = 1e-20`. -/
theorem C3_absolute_tolerances (b : ℚ) :
    (toleranceTable b).PARALLEL_COORD_TOL = 1 / 10 ^ 10
    ∧ (toleranceTable b).PLANARTOL = 1 / 10 ^ 6
    ∧ (toleranceTable b).REF_VOL_DIRDIV = 1 / 10 ^ 6
    ∧ (toleranceTable b).MINIMUM_VOLUME_BB_FACETS = 1 / 10 ^ 13
    ∧ (toleranceTable b).VOLUME_ERROR_TOL = 1 / 10 ^ 2
    ∧ (toleranceTable b).REF_PLANE_DIRDIV = 1 / 10 ^ 3
    ∧ (toleranceTable b).DOUBLE_LIMIT_ERROR = 4 / 10 ^ 15
    ∧ (toleranceTable b).CLN_LIMIT_ERROR = 1 / 10 ^ 20 := by
  refine ⟨?_, ?_, ?_, ?_, ?_, ?_, ?_, ?_⟩
  · norm_num [toleranceTable, PARALLEL_COORD_TOL]
  · norm_num [toleranceTable, PLANARTOL]
  · norm_num [toleranceTable, REF_VOL_DIRDIV]
  · norm_num [toleranceTable, MINIMUM_VOLUME_BB_FACETS]
  · norm_num [toleranceTable, VOLUME_ERROR_TOL]
  · norm_num [toleranceTable, REF_PLANE_DIRDIV]
  · norm_num [toleranceTable, DOUBLE_LIMIT_ERROR]
  · norm_num [toleranceTable, CLN_LIMIT_ERROR]

/-- Reading calls leave the stored rule alone: after any sequence of inline
calls none of which is `set_gauss_rule`, `gp_` is what it was. -/
theorem gp_runCalls (calls : List InlineCall) :
    ∀ vc : VolumeCell, (∀ c ∈ calls, c.isSetGaussRule = false) →
      (runCalls calls vc).gp_ = vc.gp_ := by
  induction calls with
  | nil => intro vc _; rfl
  | cons c cs ih =>
    intro vc h
    have hc : c.isSetGaussRule = false := h c (List.mem_cons_self c cs)
    have hcs : ∀ d ∈ cs, d.isSetGaussRule = false :=
      fun d hd => h d (List.mem_cons_of_mem c hd)
    have hstep : (c.run vc).gp_ = vc.gp_ := by
      cases c <;> first | rfl | (simp [InlineCall.isSetGaussRule] at hc)
    simp only [runCalls]
    rw [ih (c.run vc) hcs, hstep]

/-- C4. `get_gauss_rule()` changes no field of the cell, two successive calls
return the identical rule, and so do two calls separated by any inline calls
other than `set_gauss_rule`. -/
theorem C4_get_gauss_rule_cached (vc : VolumeCell) :
    vc.get_gauss_rule.2 = vc
    ∧ vc.get_gauss_rule.2.get_gauss_rule.1 = vc.get_gauss_rule.1
    ∧ ∀ calls : List InlineCall, (∀ c ∈ calls, c.isSetGaussRule = false) →
        (runCalls calls vc.get_gauss_rule.2).get_gauss_rule.1 = vc.get_gauss_rule.1 :=
  ⟨rfl, rfl, fun calls h => gp_runCalls calls vc h⟩

/-- C5. Every member function whose body is in the header, the setters
`set_volume`, `set_gauss_rule`, `set_nodal_dof_set` and all read accessors,
leaves the value returned by `position()` unchanged. -/
theorem C5_position_frame (vc : VolumeCell) (c : InlineCall) :
    (c.run vc).position = vc.position := by
  cases c <;> rfl

/-- C6 (claim as stated fails). `plainCell` and `flatCell` satisfy the
negligible-cell policy; after `set_volume(1e-7)` the first has a volume below
`REF_VOL_DIRDIV` without being negligible, and after `set_gauss_rule` with a
one-point rule the second is negligible with a non-empty rule. -/
theorem C6_setters_break_negligible_policy :
    negligiblePolicy plainCell
    ∧ ¬ negligiblePolicy (plainCell.set_volume (1 / 10 ^ 7))
    ∧ negligiblePolicy flatCell
    ∧ ¬ negligiblePolicy (flatCell.set_gauss_rule (some onePointRule)) := by
  refine ⟨?_, ?_, ?_, ?_⟩
  · norm_num [negligiblePolicy, plainCell, VolumeCell.volume,
      VolumeCell.is_negligibly_small, REF_VOL_DIRDIV]
  · norm_num [negligiblePolicy, plainCell, VolumeCell.volume, VolumeCell.set_volume,
      VolumeCell.is_negligibly_small, REF_VOL_DIRDIV]
  · norm_num [negligiblePolicy, flatCell, plainCell, VolumeCell.volume,
      VolumeCell.is_negligibly_small, VolumeCell.get_gauss_rule, ruleIsEmpty]
  · norm_num [negligiblePolicy, flatCell, plainCell, VolumeCell.volume,
      VolumeCell.set_gauss_rule, VolumeCell.is_negligibly_small,
      VolumeCell.get_gauss_rule, ruleIsEmpty, onePointRule, GaussPoints.num_points]

/-- C6 (amended). `is_negligibly_small()` returns the stored flag, which no
inline member function changes; `set_volume` and `set_gauss_rule` store their
argument whatever the flag. On a cell that satisfies the policy it still holds
after `set_volume(v)` exactly when `v` is not below `REF_VOL_DIRDIV` or the
cell is flagged, and after `set_gauss_rule(g)` exactly when the cell is not
flagged or `g` is empty. -/
theorem C6_negligible_flag_is_stored (vc : VolumeCell) (v : ℚ) (g : Option GaussPoints) :
    (∀ c : InlineCall, (c.run vc).is_negligibly_small.1 = vc.is_negligibly_small.1)
    ∧ (vc.set_volume v).volume.1 = v
    ∧ (vc.set_gauss_rule g).get_gauss_rule.1 = g
    ∧ (negligiblePolicy vc →
        (negligiblePolicy (vc.set_volume v)
          ↔ (REF_VOL_DIRDIV ≤ v ∨ vc.is_negligibly_small.1 = true)))
    ∧ (negligiblePolicy vc →
        (negligiblePolicy (vc.set_gauss_rule g)
          ↔ (vc.is_negligibly_small.1 = false ∨ ruleIsEmpty g = true))) := by
  refine ⟨fun c => by cases c <;> rfl, rfl, rfl, ?_, ?_⟩
  · intro h
    simp only [negligiblePolicy, VolumeCell.volume, VolumeCell.set_volume,
      VolumeCell.is_negligibly_small, VolumeCell.get_gauss_rule] at h ⊢
    constructor
    · intro h2
      by_cases hv : v < REF_VOL_DIRDIV
      · exact Or.inr (h2.1 hv)
      · exact Or.inl (not_lt.mp hv)
    · intro h2
      refine ⟨fun hv => ?_, h.2⟩
      rcases h2 with h2 | h2
      · exact absurd hv (not_lt.mpr h2)
      · exact h2
  · intro h
    simp only [negligiblePolicy, VolumeCell.volume, VolumeCell.set_gauss_rule,
      VolumeCell.is_negligibly_small, VolumeCell.get_gauss_rule] at h ⊢
    constructor
    · intro h2
      cases hf : vc.is_negligible_small_ with
      | false => exact Or.inl rfl
      | true => exact Or.inr (h2.2 hf)
    · intro h2
      refine ⟨h.1, fun hf => ?_⟩
      rcases h2 with h2 | h2
      · rw [hf] at h2; exact absurd h2 (by decide)
      · exact h2

/-- C6 (amended), at concrete cells: the flag of `plainCell` survives
`set_volume(1e-7)` and the rule of `flatCell` is replaced by `set_gauss_rule`. -/
theorem C6_negligible_flag_is_stored_witness :
    (plainCell.set_volume (1 / 10 ^ 7)).is_negligibly_small.1 = false
    ∧ (flatCell.set_gauss_rule (some onePointRule)).get_gauss_rule.1 = some onePointRule :=
  ⟨(C6_negligible_flag_is_stored plainCell (1 / 10 ^ 7) none).1 (InlineCall.set_volume (1 / 10 ^ 7)),
   (C6_negligible_flag_is_stored flatCell 0 (some onePointRule)).2.2.1⟩

/-- The running best of the reference-plane search is a facet of the list or
the start, and its absolute coefficient bounds the start and every facet of
the list. -/
theorem foldl_betterRefFacet (rest : List Facet) :
    ∀ f : Facet,
      (rest.foldl betterRefFacet f = f ∨ rest.foldl betterRefFacet f ∈ rest)
      ∧ |f.dividedCoefficient| ≤ |(rest.foldl betterRefFacet f).dividedCoefficient|
      ∧ ∀ g ∈ rest,
          |g.dividedCoefficient| ≤ |(rest.foldl betterRefFacet f).dividedCoefficient| := by
  induction rest with
  | nil => intro f; simp
  | cons h t ih =>
    intro f
    obtain ⟨hmem, hstart, hall⟩ := ih (betterRefFacet f h)
    simp only [List.foldl_cons]
    have hstep : |f.dividedCoefficient| ≤ |(betterRefFacet f h).dividedCoefficient|
        ∧ |h.dividedCoefficient| ≤ |(betterRefFacet f h).dividedCoefficient|
        ∧ (betterRefFacet f h = f ∨ betterRefFacet f h = h) := by
      unfold betterRefFacet
      split_ifs with hlt
      · exact ⟨le_of_lt hlt, le_refl _, Or.inr rfl⟩
      · exact ⟨le_refl _, not_lt.mp hlt, Or.inl rfl⟩
    refine ⟨?_, le_trans hstep.1 hstart, ?_⟩
    · rcases hmem with hmem | hmem
      · rcases hstep.2.2 with e | e
        · left; rw [hmem, e]
        · right; rw [hmem, e]; exact List.mem_cons_self h t
      · right; exact List.mem_cons_of_mem h hmem
    · intro g hg
      rcases List.mem_cons.mp hg with e | hg
      · rw [e]; exact le_trans hstep.2.1 hstart
      · exact hall g hg

/-- C8. For every cell with at least one facet, the reference plane chosen by
the DirectDivergence rule is the plane of a facet of the cell whose
coefficient of the divided variable is largest in absolute value among all
facets, and `get_ref_eqn_plane()` returns that facet's plane equation. -/
theorem C8_reference_plane_is_largest (vc : VolumeCell) (hne : vc.facets ≠ []) :
    ∃ f ∈ vc.facets,
      selectRefFacet vc.facets = some f
      ∧ (∀ g ∈ vc.facets, |g.dividedCoefficient| ≤ |f.dividedCoefficient|)
      ∧ vc.direct_divergence_ref_plane.get_ref_eqn_plane.1 = f.eqn_plane := by
  unfold VolumeCell.facets at hne ⊢
  cases hfs : vc.facets_ with
  | nil => exact absurd hfs hne
  | cons f rest =>
    obtain ⟨hmem, hstart, hall⟩ := foldl_betterRefFacet rest f
    refine ⟨rest.foldl betterRefFacet f, ?_, rfl, ?_, ?_⟩
    · rcases hmem with e | hmem
      · rw [e]; exact List.mem_cons_self f rest
      · exact List.mem_cons_of_mem f hmem
    · intro g hg
      rcases List.mem_cons.mp hg with e | hg
      · rw [e]; exact hstart
      · exact hall g hg
    · simp [VolumeCell.direct_divergence_ref_plane, VolumeCell.get_ref_eqn_plane,
        selectRefFacet, hfs]

/-- C8 at a concrete cell: among facets with `a` equal to `0`, `-1` and
`1/2` the rule picks the second, and the stored plane is `[-1, 0, 0, 0]`. -/
theorem C8_reference_plane_is_largest_witness :
    threeFacetCell.facets ≠ []
    ∧ ∃ f ∈ threeFacetCell.facets,
        selectRefFacet threeFacetCell.facets = some f
        ∧ (∀ g ∈ threeFacetCell.facets, |g.dividedCoefficient| ≤ |f.dividedCoefficient|)
        ∧ threeFacetCell.direct_divergence_ref_plane.get_ref_eqn_plane.1 = f.eqn_plane :=
  ⟨by simp [threeFacetCell, VolumeCell.facets],
   C8_reference_plane_is_largest threeFacetCell (by simp [threeFacetCell, VolumeCell.facets])⟩


/-! ### Tessellation volume -/

/-- Swapping the last two columns flips the sign of the determinant. -/
theorem det3_antisymm (c x y : Vec3) : det3 c x y + det3 c y x = 0 := by
  simp only [det3, Vec3.dot, Vec3.cross]; ring

/-- The determinant of a triangle seen from the apex `a`, split over the three
directed edges of the triangle `p, u, v`. -/
theorem det3_apex (a p u v : Vec3) :
    det3 (p.sub a) (u.sub a) (v.sub a)
      = det3 (p.sub a) p u + det3 (p.sub a) u v + det3 (p.sub a) v p := by
  simp only [det3, Vec3.dot, Vec3.cross, Vec3.sub]; ring

/-- The edge determinant is additive in its first argument. -/
theorem edgeDet_sub (a p : Vec3) (e : Point × Point) :
    edgeDet (p.sub a) e = edgeDet p e - edgeDet a e := by
  simp only [edgeDet, det3, Vec3.dot, Vec3.cross, Vec3.sub]; ring

/-- The sum of pointwise differences is the difference of the sums. -/
theorem sum_map_sub (f g : Point × Point → ℚ) (l : List (Point × Point)) :
    (l.map fun e => f e - g e).sum = (l.map f).sum - (l.map g).sum := by
  induction l with
  | nil => simp
  | cons e t ih => simp only [List.map_cons, List.sum_cons, ih]; ring

/-- The scalar product with a sum of edge cross products is the sum of the edge
determinants. -/
theorem dot_sumVec (c : Vec3) (l : List (Point × Point)) :
    c.dot (sumVec (l.map fun e => e.1.x.cross e.2.x)) = (l.map (edgeDet c)).sum := by
  induction l with
  | nil => simp [sumVec, Vec3.dot]
  | cons e t ih =>
    simp only [List.map_cons, List.sum_cons, sumVec, ← ih]
    simp only [edgeDet, det3, Vec3.dot, Vec3.add]; ring

/-- The volume of the tetrahedron over a facet triangle. -/
theorem volume_apexTet (apex p0 u v : Point) :
    (apexTet apex (p0, u, v)).volume
      = det3 (p0.x.sub apex.x) (u.x.sub apex.x) (v.x.sub apex.x) / 6 := rfl

/-- Six times the volume of the tetrahedra over a fan telescopes to a sum over
the boundary path of the fan. -/
theorem sumVolumes_fan (apex p0 : Point) (rest : List Point) : ∀ prev : Point,
    6 * sumVolumes ((fanTriangles p0 prev rest).map (apexTet apex))
      = edgeDet (p0.x.sub apex.x) (p0, prev)
        + ((pathEdges p0 prev rest).map (edgeDet (p0.x.sub apex.x))).sum := by
  induction rest with
  | nil =>
    intro prev
    simp only [fanTriangles, pathEdges, sumVolumes, List.map_nil, List.sum_nil, List.map_cons,
      List.sum_cons, edgeDet]
    linarith [det3_antisymm (p0.x.sub apex.x) p0.x prev.x]
  | cons q r ih =>
    intro prev
    have h := ih q
    simp only [sumVolumes] at h
    simp only [fanTriangles, pathEdges, sumVolumes, List.map_cons, List.sum_cons,
      volume_apexTet, det3_apex, edgeDet] at h ⊢
    linarith [det3_antisymm (p0.x.sub apex.x) p0.x q.x]


/-- The volume sum of two sets of cells put together. -/
theorem sumVolumes_append (l₁ l₂ : List IntegrationCell) :
    sumVolumes (l₁ ++ l₂) = sumVolumes l₁ + sumVolumes l₂ := by
  simp [sumVolumes]

/-- Six times the volume of the tetrahedra over one facet is the facet's share
of the polyhedron volume minus the edge sum seen from the apex. -/
theorem sumVolumes_facet (apex : Point) (f : Facet) :
    6 * sumVolumes ((splitFacet f).map (apexTet apex))
      = 6 * f.volumeShare - ((loopEdges f.points).map (edgeDet apex.x)).sum := by
  have hshare : ∀ p0 : Point, 6 * (p0.x.dot f.areaVector / 3)
      = ((loopEdges f.points).map (edgeDet p0.x)).sum := by
    intro p0
    rw [← dot_sumVec]
    simp only [Facet.areaVector, Vec3.dot, Vec3.smul]; ring
  cases hp : f.points with
  | nil => simp [splitFacet, Facet.volumeShare, hp, loopEdges, sumVolumes]
  | cons p0 t =>
    have hs := hshare p0
    rw [hp] at hs
    cases t with
    | nil =>
      have h0 : ∀ c : Vec3, edgeDet c (p0, p0) = 0 := by
        intro c; simp only [edgeDet, det3, Vec3.dot, Vec3.cross]; ring
      simp only [splitFacet, Facet.volumeShare, hp, hs]
      simp [sumVolumes, loopEdges, pathEdges, h0]
    | cons p1 rest =>
      have hfan := sumVolumes_fan apex p0 rest p1
      simp only [splitFacet, Facet.volumeShare, hp, hs, hfan]
      simp only [loopEdges, pathEdges, List.map_cons, List.sum_cons]
      have hsub : ((pathEdges p0 p1 rest).map (edgeDet (p0.x.sub apex.x))).sum
          = ((pathEdges p0 p1 rest).map (edgeDet p0.x)).sum
            - ((pathEdges p0 p1 rest).map (edgeDet apex.x)).sum := by
        rw [← sum_map_sub]; congr 1
        exact List.map_congr_left fun e _ => edgeDet_sub apex.x p0.x e
      rw [hsub, edgeDet_sub]; ring

/-- Six times the volume of all tetrahedra is six times the polyhedron volume
minus the sum of the edge determinants seen from the apex. -/
theorem sumVolumes_tessellationCells (apex : Point) (facets : List Facet) :
    6 * sumVolumes (tessellationCells apex facets)
      = 6 * polyhedronVolume facets - ((boundaryEdges facets).map (edgeDet apex.x)).sum := by
  induction facets with
  | nil => simp [tessellationCells, polyhedronVolume, boundaryEdges, sumVolumes]
  | cons f fs ih =>
    simp only [tessellationCells, sumVolumes_append, polyhedronVolume, boundaryEdges,
      List.map_cons, List.sum_cons, List.map_append, List.sum_append] at ih ⊢
    have hf := sumVolumes_facet apex f
    linarith

/-- Reversing every edge flips the sign of the edge sum. -/
theorem sum_edgeDet_swap (c : Vec3) (l : List (Point × Point)) :
    ((l.map Prod.swap).map (edgeDet c)).sum = - (l.map (edgeDet c)).sum := by
  induction l with
  | nil => simp
  | cons e t ih =>
    simp only [List.map_cons, List.sum_cons, ih]
    have := det3_antisymm c e.1.x e.2.x
    simp only [edgeDet, Prod.swap] at this ⊢
    linarith

/-- On a closed surface the edge determinants cancel, whatever the apex. -/
theorem sum_edgeDet_closed (c : Vec3) (facets : List Facet) (h : closedSurface facets) :
    ((boundaryEdges facets).map (edgeDet c)).sum = 0 := by
  have h1 := (List.Perm.map (edgeDet c) h).sum_eq
  rw [sum_edgeDet_swap] at h1
  linarith

/-- The six faces of a box form a closed surface. -/
theorem box_closed (z0 z1 : ℚ) (first : Nat) : closedSurface (boxFacets z0 z1 first) := by
  have h : hexEdges.Perm (hexEdges.map Prod.swap) := by decide
  exact List.Perm.map (Prod.map (boxCorner z0 z1 first) (boxCorner z0 z1 first)) h

/-- The divergence formula gives the box `[0,1] x [0,1] x [z0,z1]` the volume
`z1 - z0`. -/
theorem polyhedronVolume_box (z0 z1 : ℚ) (first : Nat) :
    polyhedronVolume (boxFacets z0 z1 first) = z1 - z0 := by
  simp [polyhedronVolume, boxFacets, hexFaces, loopFacet, Facet.volumeShare, Facet.areaVector,
    loopEdges, pathEdges, sumVec, boxCorner, mkPoint, Vec3.dot, Vec3.cross, Vec3.add, Vec3.smul]
  ring


/-- C9. For every cell whose facets form a closed, consistently oriented
surface and every apex, the volumes of the integration cells created by the
Tessellation sum up to the exact volume of the polyhedron, hence agree with
it and with the stored `volume()` within `VOLUME_ERROR_TOL` relative; for the
unit cube cut by the plane `z = 0.5` both cells get the volume `0.5`. -/
theorem C9_tessellation_volume_consistency (vc : VolumeCell) (apex : Point)
    (hclosed : closedSurface vc.facets) :
    sumVolumes (vc.tessellation apex).integration_cells = polyhedronVolume vc.facets
    ∧ |sumVolumes (vc.tessellation apex).integration_cells - polyhedronVolume vc.facets|
        ≤ VOLUME_ERROR_TOL * |polyhedronVolume vc.facets|
    ∧ |sumVolumes (vc.tessellation apex).integration_cells - (vc.tessellation apex).volume.1|
        ≤ VOLUME_ERROR_TOL * |(vc.tessellation apex).volume.1|
    ∧ polyhedronVolume lowerHalfCube.facets = 1 / 2
    ∧ polyhedronVolume upperHalfCube.facets = 1 / 2
    ∧ sumVolumes (lowerHalfCube.tessellation apex).integration_cells = 1 / 2
    ∧ sumVolumes (upperHalfCube.tessellation apex).integration_cells = 1 / 2
    ∧ (lowerHalfCube.tessellation apex).volume.1 = 1 / 2
    ∧ (upperHalfCube.tessellation apex).volume.1 = 1 / 2 := by
  have hsum : ∀ c : VolumeCell, closedSurface c.facets →
      sumVolumes (c.tessellation apex).integration_cells = polyhedronVolume c.facets := by
    intro c hc
    have h1 := sumVolumes_tessellationCells apex c.facets_
    have h2 := sum_edgeDet_closed apex.x c.facets_ hc
    simp only [VolumeCell.tessellation, VolumeCell.set_volume, VolumeCell.integration_cells,
      VolumeCell.facets]
    linarith
  have hvol : ∀ c : VolumeCell, (c.tessellation apex).volume.1
      = sumVolumes (c.tessellation apex).integration_cells := fun _ => rfl
  have htol : (0 : ℚ) ≤ VOLUME_ERROR_TOL := by norm_num [VOLUME_ERROR_TOL]
  have hlow : polyhedronVolume lowerHalfCube.facets = 1 / 2 := by
    have h := polyhedronVolume_box 0 (1 / 2) 0
    simp only [lowerHalfCube, VolumeCell.facets]
    rw [h]; norm_num
  have hup : polyhedronVolume upperHalfCube.facets = 1 / 2 := by
    have h := polyhedronVolume_box (1 / 2) 1 4
    simp only [upperHalfCube, VolumeCell.facets]
    rw [h]; norm_num
  have hlc : closedSurface lowerHalfCube.facets := box_closed 0 (1 / 2) 0
  have huc : closedSurface upperHalfCube.facets := box_closed (1 / 2) 1 4
  refine ⟨hsum vc hclosed, ?_, ?_, hlow, hup, ?_, ?_, ?_, ?_⟩
  · rw [hsum vc hclosed, sub_self, abs_zero]
    exact mul_nonneg htol (abs_nonneg _)
  · rw [hvol vc, sub_self, abs_zero]
    exact mul_nonneg htol (abs_nonneg _)
  · rw [hsum lowerHalfCube hlc, hlow]
  · rw [hsum upperHalfCube huc, hup]
  · rw [hvol, hsum lowerHalfCube hlc, hlow]
  · rw [hvol, hsum upperHalfCube huc, hup]

/-- C9 at the lower half of the cut unit cube with the apex at its centre:
the facets are closed and the twelve tetrahedra sum up to the volume of the
box. -/
theorem C9_tessellation_volume_consistency_witness :
    closedSurface lowerHalfCube.facets
    ∧ sumVolumes (lowerHalfCube.tessellation (mkPoint 100 (1 / 2) (1 / 2) (1 / 4))).integration_cells
        = polyhedronVolume lowerHalfCube.facets :=
  ⟨box_closed 0 (1 / 2) 0,
   (C9_tessellation_volume_consistency lowerHalfCube (mkPoint 100 (1 / 2) (1 / 2) (1 / 4))
      (box_closed 0 (1 / 2) 0)).1⟩


/-! ### Precision escalation -/

/-- Started after `k ≤ ceiling` precision increases, the loop reports an
outcome within `ceiling - k + 1` evaluations. -/
theorem escalationLoop_from (compute : Nat → ℚ) (looser : ℚ) (ceiling : Nat) :
    ∀ d k fuel : Nat, k + d = ceiling → d + 1 ≤ fuel →
      ∃ out, escalationLoop compute looser ceiling fuel k = some out
        ∧ outcomeFrom compute looser ceiling k out := by
  intro d
  induction d with
  | zero =>
    intro k fuel hk hfuel
    obtain ⟨f, rfl⟩ : ∃ f, fuel = f + 1 := ⟨fuel - 1, by omega⟩
    by_cases ha : ambiguous looser (compute k) = false
    · exact ⟨PredicateOutcome.resolved (compute k) k, by simp [escalationLoop, ha],
        le_refl k, by omega, rfl, ha, fun i h1 h2 => by omega⟩
    · have hc : ceiling ≤ k := by omega
      refine ⟨PredicateOutcome.insufficientPrecision k, by simp [escalationLoop, ha, hc],
        by omega, fun i h1 h2 => ?_⟩
      have : i = k := by omega
      rw [this]; simpa using ha
  | succ d ih =>
    intro k fuel hk hfuel
    obtain ⟨f, rfl⟩ : ∃ f, fuel = f + 1 := ⟨fuel - 1, by omega⟩
    by_cases ha : ambiguous looser (compute k) = false
    · exact ⟨PredicateOutcome.resolved (compute k) k, by simp [escalationLoop, ha],
        le_refl k, by omega, rfl, ha, fun i h1 h2 => by omega⟩
    · have hc : ¬ ceiling ≤ k := by omega
      obtain ⟨out, hout, hprop⟩ := ih (k + 1) f (by omega) (by omega)
      have hk_amb : ambiguous looser (compute k) = true := by simpa using ha
      refine ⟨out, by simp [escalationLoop, ha, hc, hout], ?_⟩
      cases out with
      | resolved r j =>
        obtain ⟨h1, h2, h3, h4, h5⟩ := hprop
        refine ⟨by omega, h2, h3, h4, fun i hi1 hi2 => ?_⟩
        by_cases hik : i = k
        · rw [hik]; exact hk_amb
        · exact h5 i (by omega) hi2
      | insufficientPrecision j =>
        obtain ⟨h1, h2⟩ := hprop
        refine ⟨h1, fun i hi1 hi2 => ?_⟩
        by_cases hik : i = k
        · rw [hik]; exact hk_amb
        · exact h2 i (by omega) hi2

/-- Once the loop has reported an outcome, more fuel leaves it unchanged. -/
theorem escalationLoop_mono (compute : Nat → ℚ) (looser : ℚ) (ceiling : Nat) :
    ∀ fuel k out, escalationLoop compute looser ceiling fuel k = some out →
      ∀ fuel2, fuel ≤ fuel2 → escalationLoop compute looser ceiling fuel2 k = some out := by
  intro fuel
  induction fuel with
  | zero => intro k out h; simp [escalationLoop] at h
  | succ f ih =>
    intro k out h fuel2 hle
    obtain ⟨g, rfl⟩ : ∃ g, fuel2 = g + 1 := ⟨fuel2 - 1, by omega⟩
    by_cases ha : ambiguous looser (compute k) = false
    · simp only [escalationLoop, ha, if_true] at h ⊢; exact h
    · by_cases hc : ceiling ≤ k
      · simp only [escalationLoop, ha, hc, if_true, if_false] at h ⊢; exact h
      · simp only [escalationLoop, ha, hc, if_false] at h ⊢
        exact ih (k + 1) out h g (by omega)

/-- C10. For every predicate (every sequence of results, the double one
included), every looser bound and every ceiling, the escalation loop ends
within `ceiling + 1` evaluations, that is after at most `ceiling` precision
increases, and more fuel does not change what it reports: either a value
outside the ambiguous band, or `InsufficientPrecision` exactly at
the ceiling with every result inside the band. A double result below
`DOUBLE_LIMIT_ERROR` is accepted without any precision increase. -/
theorem C10_escalation_is_bounded (compute : Nat → ℚ) (looser : ℚ) (ceiling : Nat) :
    (∃ out,
      (∀ fuel, ceiling + 1 ≤ fuel → escalationLoop compute looser ceiling fuel 0 = some out)
      ∧ outcomeFrom compute looser ceiling 0 out)
    ∧ (|compute 0| < DOUBLE_LIMIT_ERROR →
        ∀ fuel, escalationLoop compute looser ceiling (fuel + 1) 0
          = some (PredicateOutcome.resolved (compute 0) 0)) := by
  constructor
  · obtain ⟨out, hout, hprop⟩ :=
      escalationLoop_from compute looser ceiling ceiling 0 (ceiling + 1) (by omega) (le_refl _)
    exact ⟨out, fun fuel hfuel => escalationLoop_mono compute looser ceiling _ 0 out hout fuel hfuel,
      hprop⟩
  · intro h fuel
    have ha : ambiguous looser (compute 0) = false := by
      simp only [ambiguous, decide_eq_false_iff_not, not_and, not_le]
      intro h2; exact absurd h (not_lt.mpr h2)
    simp [escalationLoop, ha]

/-- C10 at a predicate whose result stays at `1e-14`, inside the band between
`DOUBLE_LIMIT_ERROR` and the looser bound `1e-12`, with ceiling 5: the loop
reports after six evaluations, and what it reports is
`InsufficientPrecision` after five precision increases. -/
theorem C10_escalation_is_bounded_witness :
    (∃ out,
      (∀ fuel, 5 + 1 ≤ fuel →
        escalationLoop (fun _ => 1 / 10 ^ 14) (1 / 10 ^ 12) 5 fuel 0 = some out)
      ∧ outcomeFrom (fun _ => 1 / 10 ^ 14) (1 / 10 ^ 12) 5 0 out)
    ∧ escalationLoop (fun _ => 1 / 10 ^ 14) (1 / 10 ^ 12) 5 6 0
        = some (PredicateOutcome.insufficientPrecision 5)
    ∧ escalationLoop (fun _ => 1 / 10 ^ 14) (1 / 10 ^ 12) 5 5 0 = none := by
  have ha : ambiguous ((10 ^ 12)⁻¹) ((10 ^ 14)⁻¹) = true := by
    simp only [ambiguous, DOUBLE_LIMIT_ERROR, decide_eq_true_eq]
    rw [abs_of_pos (by norm_num)]
    constructor <;> norm_num
  refine ⟨(C10_escalation_is_bounded (fun _ => 1 / 10 ^ 14) (1 / 10 ^ 12) 5).1, ?_, ?_⟩
  · simp [escalationLoop, ha]
  · simp [escalationLoop, ha]

end Cut

namespace GEOMETRYPAIR

/-- The `unsigned int` product of three factors is their product modulo
`2 ^ 32`. -/
theorem umul_umul (a b c : Nat) : umul (umul a b) c = (a * b * c) % 2 ^ 32 := by
  simp only [umul]
  rw [Nat.mul_mod, Nat.mod_mod, ← Nat.mul_mod]

/-- C11 (claim as stated fails). The instance
`ElementDiscretizationBase<line2, 2147483648, 1>` has two nodes and
`2 ^ 31` values per node; its `n_dof_` is `0`, not `2 ^ 32`. -/
theorem C11_n_dof_wraps :
    (ElementDiscretizationBase.mk CellType.line2 (2 ^ 31) 1).n_dof_ = 0
    ∧ (ElementDiscretizationBase.mk CellType.line2 (2 ^ 31) 1).n_dof_
        ≠ (ElementDiscretizationBase.mk CellType.line2 (2 ^ 31) 1).spatial_dim_
          * (ElementDiscretizationBase.mk CellType.line2 (2 ^ 31) 1).n_val_
          * (ElementDiscretizationBase.mk CellType.line2 (2 ^ 31) 1).n_nodes_ := by
  decide

/-- C11 (amended). For every element type, `n_dof_` is
`spatial_dim * values_per_node * number of nodes` as an `unsigned int`, that
is modulo `2 ^ 32`, and the product itself whenever that is below `2 ^ 32`;
`spatial_dim` defaults to 3. This covers every declared alias; `t_hermite`
has 12 unknowns, `t_line2` has 6, `t_line2_scalar` has 2 and `t_hex8` has
24. -/
theorem C11_n_dof (e : ElementDiscretizationBase) (d : CellType) (v : Nat) :
    e.n_dof_ = (e.spatial_dim_ * e.n_val_ * e.n_nodes_) % 2 ^ 32
    ∧ (e.spatial_dim_ * e.n_val_ * e.n_nodes_ < 2 ^ 32 →
        e.n_dof_ = e.spatial_dim_ * e.n_val_ * e.n_nodes_)
    ∧ e.n_nodes_ = num_nodes e.discretization
    ∧ (ElementDiscretizationBase.withDefault d v).spatial_dim_ = 3
    ∧ (∀ a ∈ declaredAliases, a.n_dof_ = a.spatial_dim_ * a.n_val_ * a.n_nodes_)
    ∧ t_hermite.n_dof_ = 12
    ∧ t_line2.n_dof_ = 6
    ∧ t_line2_scalar.n_dof_ = 2
    ∧ t_hex8.n_dof_ = 24 := by
  have h : e.n_dof_ = (e.spatial_dim_ * e.n_val_ * e.n_nodes_) % 2 ^ 32 :=
    umul_umul e.spatial_dim_ e.n_val_ e.n_nodes_
  refine ⟨h, fun hlt => ?_, rfl, rfl, by decide, by decide, by decide, by decide, by decide⟩
  rw [h, Nat.mod_eq_of_lt hlt]

/-- C12. `ElementDiscretizationToGeometryType` gives the same geometry type to
all polynomial orders of a shape that it covers: `line2` maps to `line`;
`tri3` and `tri6` to `triangle`; `quad4`, `quad8`, `quad9` and `nurbs9` to
`quad`; `hex8`, `hex20`, `hex27` and `nurbs27` to `hexahedron`; `tet4` and
`tet10` to `tetraeder`; `wedge6` to `wedge`. These fourteen are the cell
types with a geometry type other than `none`. -/
theorem C12_geometry_type_by_shape :
    ElementDiscretizationToGeometryType CellType.line2 = DiscretizationTypeGeometry.line
    ∧ ElementDiscretizationToGeometryType CellType.tri3 = DiscretizationTypeGeometry.triangle
    ∧ ElementDiscretizationToGeometryType CellType.tri6 = DiscretizationTypeGeometry.triangle
    ∧ ElementDiscretizationToGeometryType CellType.quad4 = DiscretizationTypeGeometry.quad
    ∧ ElementDiscretizationToGeometryType CellType.quad8 = DiscretizationTypeGeometry.quad
    ∧ ElementDiscretizationToGeometryType CellType.quad9 = DiscretizationTypeGeometry.quad
    ∧ ElementDiscretizationToGeometryType CellType.nurbs9 = DiscretizationTypeGeometry.quad
    ∧ ElementDiscretizationToGeometryType CellType.hex8 = DiscretizationTypeGeometry.hexahedron
    ∧ ElementDiscretizationToGeometryType CellType.hex20 = DiscretizationTypeGeometry.hexahedron
    ∧ ElementDiscretizationToGeometryType CellType.hex27 = DiscretizationTypeGeometry.hexahedron
    ∧ ElementDiscretizationToGeometryType CellType.nurbs27
        = DiscretizationTypeGeometry.hexahedron
    ∧ ElementDiscretizationToGeometryType CellType.tet4 = DiscretizationTypeGeometry.tetraeder
    ∧ ElementDiscretizationToGeometryType CellType.tet10 = DiscretizationTypeGeometry.tetraeder
    ∧ ElementDiscretizationToGeometryType CellType.wedge6 = DiscretizationTypeGeometry.wedge
    ∧ ∀ c : CellType,
        ElementDiscretizationToGeometryType c ≠ DiscretizationTypeGeometry.none
          ↔ c ∈ [CellType.line2, CellType.tri3, CellType.tri6, CellType.quad4, CellType.quad8,
                 CellType.quad9, CellType.nurbs9, CellType.hex8, CellType.hex20, CellType.hex27,
                 CellType.nurbs27, CellType.tet4, CellType.tet10, CellType.wedge6] := by
  refine ⟨rfl, rfl, rfl, rfl, rfl, rfl, rfl, rfl, rfl, rfl, rfl, rfl, rfl, rfl, ?_⟩
  intro c
  cases c <;> decide

/-- C13 (the code at the failing input). `line3` and `line4` have no
specialisation of `ElementDiscretizationToGeometryType`, so the aliases
`t_line3` and `t_line4` get the geometry type `none` of the primary template,
not `line`; the geometry type of each of the other sixteen aliases is the
one of its shape. -/
theorem C13_line3_line4_geometry_none :
    t_line3.geometry_type_ = DiscretizationTypeGeometry.none
    ∧ t_line4.geometry_type_ = DiscretizationTypeGeometry.none
    ∧ t_hermite.geometry_type_ = DiscretizationTypeGeometry.line
    ∧ t_line2.geometry_type_ = DiscretizationTypeGeometry.line
    ∧ t_line2_scalar.geometry_type_ = DiscretizationTypeGeometry.line
    ∧ (∀ a ∈ declaredAliases,
        a.geometry_type_ = DiscretizationTypeGeometry.none ↔ a = t_line3 ∨ a = t_line4)
    ∧ (∀ a ∈ [t_tri3, t_tri6], a.geometry_type_ = DiscretizationTypeGeometry.triangle)
    ∧ (∀ a ∈ [t_quad4, t_quad8, t_quad9, t_nurbs9],
        a.geometry_type_ = DiscretizationTypeGeometry.quad)
    ∧ (∀ a ∈ [t_hex8, t_hex20, t_hex27, t_nurbs27],
        a.geometry_type_ = DiscretizationTypeGeometry.hexahedron)
    ∧ (∀ a ∈ [t_tet4, t_tet10], a.geometry_type_ = DiscretizationTypeGeometry.tetraeder)
    ∧ t_wedge6.geometry_type_ = DiscretizationTypeGeometry.wedge := by
  decide

end GEOMETRYPAIR

namespace Thermo

/-- A single-norm check with one of the three handled norm types answers
without an error. -/
theorem singleNormConverged_ok (normtype : ConvNorm) (norm tol normchar : ℚ) (msg : String)
    (h : normtype ≠ ConvNorm.other) :
    ∃ b, TimIntImpl.singleNormConverged normtype norm tol normchar msg = Except.ok b := by
  cases normtype with
  | convnorm_abs => exact ⟨_, rfl⟩
  | convnorm_rel => exact ⟨_, rfl⟩
  | convnorm_mix => exact ⟨_, rfl⟩
  | other => exact absurd rfl h

/-- C15. With both norm types among abs, rel and mix and the combination
operator `and` or `or`, `converged()` raises an error if and only if
`normcharforce_ <= 0` or `normchartemp_ <= 0`; in every other such state it
returns a boolean. -/
theorem C15_converged_raises_iff (s : TimIntImpl)
    (hfres : s.normtypefres_ ≠ ConvNorm.other) (htempi : s.normtypetempi_ ≠ ConvNorm.other)
    (hcomb : s.combtempifres_ ≠ BinaryOp.other) :
    ((∃ msg, s.converged = Except.error msg)
        ↔ (s.normcharforce_ ≤ 0 ∨ s.normchartemp_ ≤ 0))
    ∧ (¬ (s.normcharforce_ ≤ 0 ∨ s.normchartemp_ ≤ 0) → ∃ b, s.converged = Except.ok b) := by
  have hok : ¬ (s.normcharforce_ ≤ 0 ∨ s.normchartemp_ ≤ 0) → ∃ b, s.converged = Except.ok b := by
    intro h
    have h1 : ¬ s.normcharforce_ ≤ 0 := fun h' => h (Or.inl h')
    have h2 : ¬ s.normchartemp_ ≤ 0 := fun h' => h (Or.inr h')
    obtain ⟨bf, hbf⟩ := singleNormConverged_ok s.normtypefres_ s.normfres_ s.tolfres_
      s.normcharforce_ "Cannot check for convergence of residual forces!" hfres
    obtain ⟨bt, hbt⟩ := singleNormConverged_ok s.normtypetempi_ s.normtempi_ s.toltempi_
      s.normchartemp_ "Cannot check for convergence of residual temperatures!" htempi
    have h1' : ¬ s.normcharforce_ ≤ 0.0 := by norm_num; exact not_le.mp h1
    have h2' : ¬ s.normchartemp_ ≤ 0.0 := by norm_num; exact not_le.mp h2
    unfold TimIntImpl.converged
    rw [if_neg h1', if_neg h2', hbf, hbt]
    cases hc : s.combtempifres_ with
    | bop_and => exact ⟨bt && bf, by simp⟩
    | bop_or => exact ⟨bt || bf, by simp⟩
    | other => exact absurd hc hcomb
  refine ⟨⟨?_, ?_⟩, hok⟩
  · rintro ⟨msg, hmsg⟩
    by_contra h
    obtain ⟨b, hb⟩ := hok h
    rw [hb] at hmsg
    exact absurd hmsg (by simp)
  · intro h
    unfold TimIntImpl.converged
    by_cases h1 : s.normcharforce_ ≤ 0
    · have h1' : s.normcharforce_ ≤ 0.0 := by norm_num; exact h1
      exact ⟨_, by rw [if_pos h1']⟩
    · have h1' : ¬ s.normcharforce_ ≤ 0.0 := by norm_num; exact not_le.mp h1
      have h2 : s.normchartemp_ ≤ 0 := h.resolve_left h1
      have h2' : s.normchartemp_ ≤ 0.0 := by norm_num; exact h2
      exact ⟨_, by rw [if_neg h1', if_pos h2']⟩

/-- C15 at `sampleTimInt`, whose characteristic norms are 1: `converged()`
raises no error and returns a boolean. -/
theorem C15_converged_raises_iff_witness :
    sampleTimInt.normtypefres_ ≠ ConvNorm.other
    ∧ sampleTimInt.normtypetempi_ ≠ ConvNorm.other
    ∧ sampleTimInt.combtempifres_ ≠ BinaryOp.other
    ∧ ((∃ msg, sampleTimInt.converged = Except.error msg)
        ↔ (sampleTimInt.normcharforce_ ≤ 0 ∨ sampleTimInt.normchartemp_ ≤ 0))
    ∧ (¬ (sampleTimInt.normcharforce_ ≤ 0 ∨ sampleTimInt.normchartemp_ ≤ 0) →
        ∃ b, sampleTimInt.converged = Except.ok b) :=
  ⟨by decide, by decide, by decide,
   (C15_converged_raises_iff sampleTimInt (by decide) (by decide) (by decide)).1,
   (C15_converged_raises_iff sampleTimInt (by decide) (by decide) (by decide)).2⟩

/-- An `int` operation whose exact result fits an `int` yields that result. -/
theorem wrapInt_of_isInt (x : Int) (h : isInt x) : wrapInt x = x := by
  unfold isInt at h
  unfold wrapInt
  omega

/-- The result of an `int` operation is at most `INT_MAX`. -/
theorem wrapInt_le_INT_MAX (x : Int) : wrapInt x ≤ INT_MAX := by
  unfold wrapInt INT_MAX
  omega

/-- The loop from the test after `k` iterations, with `iter_ = k + 1`: it ends
within `d + 1` tests when `k + d` is the bound `m`, after a number of
iterations between `k`, `itermin_` and `m`, and leaves that number in
`iter_`. -/
theorem equilibriumLoop_from (conv : Nat → Bool) (itermax_ itermin_ : Int) (m : Nat)
    (hmax : itermax_ ≤ m) (hmin : itermin_ ≤ m) (hm : (m : Int) < INT_MAX) :
    ∀ d k fuel : Nat, k + d = m → d + 1 ≤ fuel →
      ∃ n : Nat, equilibriumLoop conv itermax_ itermin_ fuel k (k + 1) = some (n, (n : Int))
        ∧ k ≤ n ∧ n ≤ m ∧ itermin_ ≤ n := by
  unfold INT_MAX at hm
  intro d
  induction d with
  | zero =>
    intro k fuel hk hfuel
    obtain ⟨f, rfl⟩ : ∃ f, fuel = f + 1 := ⟨fuel - 1, by omega⟩
    have h1 : ¬ ((k : Int) + 1 ≤ itermax_) := by omega
    have h2 : ¬ ((k : Int) + 1 ≤ itermin_) := by omega
    have hw : wrapInt ((k : Int) + 1 - 1) = k :=
      by rw [wrapInt_of_isInt _ (by unfold isInt; omega)]; omega
    have hcond : ¬ ((((!conv k) && decide ((k : Int) + 1 ≤ itermax_))
        || decide ((k : Int) + 1 ≤ itermin_)) = true) := by simp [h1, h2]
    refine ⟨k, ?_, le_refl k, by omega, by omega⟩
    rw [equilibriumLoop, if_neg hcond, hw]
  | succ d ih =>
    intro k fuel hk hfuel
    obtain ⟨f, rfl⟩ : ∃ f, fuel = f + 1 := ⟨fuel - 1, by omega⟩
    by_cases hcond : (((!conv k) && decide ((k : Int) + 1 ≤ itermax_))
        || decide ((k : Int) + 1 ≤ itermin_)) = true
    · obtain ⟨n, hn, h1, h2, h3⟩ := ih (k + 1) f (by omega) (by omega)
      have hw : wrapInt ((k : Int) + 1 + 1) = ((k + 1 : Nat) : Int) + 1 := by
        rw [wrapInt_of_isInt _ (by unfold isInt; omega)]; push_cast; ring
      refine ⟨n, ?_, by omega, h2, h3⟩
      rw [equilibriumLoop, if_pos hcond, hw]
      exact hn
    · have hw : wrapInt ((k : Int) + 1 - 1) = k :=
        by rw [wrapInt_of_isInt _ (by unfold isInt; omega)]; omega
      have h2 : ¬ ((k : Int) + 1 ≤ itermin_) := by
        intro h
        apply hcond
        simp [h]
      refine ⟨k, ?_, le_refl k, by omega, by omega⟩
      rw [equilibriumLoop, if_neg hcond, hw]

/-- Once the loop has ended, more fuel leaves its result unchanged. -/
theorem equilibriumLoop_mono (conv : Nat → Bool) (itermax_ itermin_ : Int) :
    ∀ (fuel k : Nat) (iter_ : Int) (r : Nat × Int),
      equilibriumLoop conv itermax_ itermin_ fuel k iter_ = some r →
      ∀ fuel2, fuel ≤ fuel2 → equilibriumLoop conv itermax_ itermin_ fuel2 k iter_ = some r := by
  intro fuel
  induction fuel with
  | zero => intro k iter_ r h; simp [equilibriumLoop] at h
  | succ f ih =>
    intro k iter_ r h fuel2 hle
    obtain ⟨g, rfl⟩ : ∃ g, fuel2 = g + 1 := ⟨fuel2 - 1, by omega⟩
    rw [equilibriumLoop] at h ⊢
    by_cases hcond : (((!conv k) && decide (iter_ ≤ itermax_))
        || decide (iter_ ≤ itermin_)) = true
    · rw [if_pos hcond] at h ⊢
      exact ih (k + 1) _ r h g (by omega)
    · rw [if_neg hcond] at h ⊢
      exact h

/-- With `itermax_ = INT_MAX` and a check that never converges the loop test
is true for every value of `iter_`, and the loop runs as long as it is given
fuel. -/
theorem equilibriumLoop_never (fuel : Nat) :
    ∀ (k : Nat) (iter_ : Int), iter_ ≤ INT_MAX →
      equilibriumLoop (fun _ => false) INT_MAX 0 fuel k iter_ = none := by
  induction fuel with
  | zero => intro k iter_ _; rfl
  | succ f ih =>
    intro k iter_ h
    rw [equilibriumLoop]
    have hcond : (((!(fun _ : Nat => false) k) && decide (iter_ ≤ INT_MAX))
        || decide (iter_ ≤ 0)) = true := by simp [h]
    rw [if_pos hcond]
    exact ih (k + 1) _ (wrapInt_le_INT_MAX _)

/-- C16 (claim as stated fails). With `itermax_ = INT_MAX`, `itermin_ = 0` and
a convergence check that always answers `false`, the loop of `newton_full()`
does not terminate: `iter_ <= itermax_` holds for every `int`. -/
theorem C16_newton_loop_unbounded_at_INT_MAX :
    ¬ ∃ (fuel : Nat) (r : Nat × Int),
        newtonLoop (fun _ => false) INT_MAX 0 fuel = some r := by
  rintro ⟨fuel, r, h⟩
  rw [newtonLoop, equilibriumLoop_never fuel 0 1 (by unfold INT_MAX; omega)] at h
  exact absurd h (by simp)

/-- C16 (amended). When `itermax_` and `itermin_` are below `INT_MAX`, then for
every convergence oracle the loop of `newton_full()` terminates within
`max(itermax_, itermin_, 0) + 1` loop tests, after at most
`max(itermax_, itermin_, 0)` and at least `max(itermin_, 0)` iterations, and
the corrected `iter_` is the number of iterations executed. -/
theorem C16_newton_loop_bounds (conv : Nat → Bool) (itermax_ itermin_ : Int)
    (hmax : itermax_ < INT_MAX) (hmin : itermin_ < INT_MAX) :
    ∃ n : Nat,
      (∀ fuel, (max (max itermax_ itermin_) 0).toNat + 1 ≤ fuel →
        newtonLoop conv itermax_ itermin_ fuel = some (n, (n : Int)))
      ∧ (n : Int) ≤ max (max itermax_ itermin_) 0
      ∧ max itermin_ 0 ≤ (n : Int) := by
  have hM0 : (0 : Int) ≤ max (max itermax_ itermin_) 0 := le_max_right _ _
  have hM : ((max (max itermax_ itermin_) 0).toNat : Int) = max (max itermax_ itermin_) 0 :=
    Int.toNat_of_nonneg hM0
  have h1 : itermax_ ≤ max (max itermax_ itermin_) 0 :=
    le_trans (le_max_left _ _) (le_max_left _ _)
  have h2 : itermin_ ≤ max (max itermax_ itermin_) 0 :=
    le_trans (le_max_right _ _) (le_max_left _ _)
  have h3 : max (max itermax_ itermin_) 0 < INT_MAX := by
    apply max_lt (max_lt hmax hmin)
    unfold INT_MAX; omega
  obtain ⟨n, hn, _, hle, hge⟩ :=
    equilibriumLoop_from conv itermax_ itermin_ (max (max itermax_ itermin_) 0).toNat
      (by rw [hM]; exact h1) (by rw [hM]; exact h2) (by rw [hM]; exact h3)
      (max (max itermax_ itermin_) 0).toNat 0 ((max (max itermax_ itermin_) 0).toNat + 1)
      (by omega) (le_refl _)
  refine ⟨n, fun fuel hfuel => ?_, ?_, ?_⟩
  · exact equilibriumLoop_mono conv itermax_ itermin_ _ 0 1 _ hn fuel hfuel
  · rw [← hM]; exact_mod_cast hle
  · exact max_le hge (by omega)

/-- C16 (amended) with at most 50 iterations and a check that converges after
two: the loop ends after two iterations with `iter_ = 2`. -/
theorem C16_newton_loop_bounds_witness :
    (50 : Int) < INT_MAX ∧ (0 : Int) < INT_MAX
    ∧ (∃ n : Nat,
        (∀ fuel, (max (max (50 : Int) 0) 0).toNat + 1 ≤ fuel →
          newtonLoop (fun k => decide (2 ≤ k)) 50 0 fuel = some (n, (n : Int)))
        ∧ (n : Int) ≤ max (max (50 : Int) 0) 0
        ∧ max (0 : Int) 0 ≤ (n : Int))
    ∧ newtonLoop (fun k => decide (2 ≤ k)) 50 0 3 = some (2, 2) :=
  ⟨by decide, by decide,
   C16_newton_loop_bounds (fun k => decide (2 ≤ k)) 50 0 (by decide) (by decide),
   by decide⟩

/-- C17 (the code at the failing input). A loop that converges in its last
allowed iteration (`itermax_ = 1`) leaves `iter_ = itermax_`; in that state
`converged()` is true, and `newton_full_error_check()` still raises "Newton
unconverged in %d iterations" under `divcont_stop` and halves the time step,
returning `conv_fail_repeat`, under `divcont_halve_step`. -/
theorem C17_converged_in_last_iteration_fails :
    newtonLoop (fun k => decide (1 ≤ k)) 1 0 2 = some (1, 1)
    ∧ convergedInLastIteration.iter_ = 1 ∧ convergedInLastIteration.itermax_ = 1
    ∧ convergedInLastIteration.converged = Except.ok true
    ∧ convergedInLastIteration.divcontype_ = DivContAct.divcont_stop
    ∧ convergedInLastIteration.newton_full_error_check id
        = Except.error "Newton unconverged in %d iterations"
    ∧ convergedInLastIterationHalve.converged = Except.ok true
    ∧ convergedInLastIterationHalve.newton_full_error_check id
        = Except.ok (ConvergenceStatus.conv_fail_repeat,
            convergedInLastIterationHalve.halve_time_step id)
    ∧ (convergedInLastIterationHalve.halve_time_step id).dt
        = convergedInLastIterationHalve.dt / 2 := by
  have hc : convergedInLastIteration.converged = Except.ok true := by
    norm_num [TimIntImpl.converged, TimIntImpl.singleNormConverged, convergedInLastIteration,
      sampleTimInt]
  have hch : convergedInLastIterationHalve.converged = Except.ok true := by
    norm_num [TimIntImpl.converged, TimIntImpl.singleNormConverged,
      convergedInLastIterationHalve, convergedInLastIteration, sampleTimInt]
  refine ⟨by decide, rfl, rfl, hc, rfl, ?_, hch, ?_, ?_⟩
  · simp [TimIntImpl.newton_full_error_check, convergedInLastIteration, sampleTimInt]
  · simp [TimIntImpl.newton_full_error_check, convergedInLastIterationHalve,
      convergedInLastIteration, sampleTimInt]
  · simp only [TimIntImpl.halve_time_step, TimIntImpl.set_dt, TimIntImpl.set_timen,
      TimIntImpl.set_num_step, id]
    norm_num
    ring

/-- C18. In exact arithmetic, that is when no `int` operation overflows, and
with a `reset_step()` that leaves the time stepping data alone,
`halve_time_step()` sets `dt' = dt / 2`, `timen' = time_old + dt / 2` and
`num_step' = 2 * num_step - step + 1`, so that
`(num_step' - step + 1) * dt' = (num_step - step + 1) * dt`; it increments
`divcontrefinelevel_` by one, resets `divcontfinesteps_` to 0 and adds
`iter_` to `resetiter_`. -/
theorem C18_halve_time_step (reset_step : TimIntImpl → TimIntImpl) (s : TimIntImpl)
    (hreset : keepsTimeStepping reset_step)
    (h1 : isInt (s.num_step - s.step))
    (h2 : isInt (s.num_step + (s.num_step - s.step)))
    (h3 : isInt (s.num_step + (s.num_step - s.step) + 1))
    (h4 : isInt (s.divcontrefinelevel_ + 1))
    (h5 : isInt (s.resetiter_ + s.iter_)) :
    (s.halve_time_step reset_step).dt = s.dt / 2
    ∧ (s.halve_time_step reset_step).timen = s.time_old + s.dt / 2
    ∧ (s.halve_time_step reset_step).num_step = 2 * s.num_step - s.step + 1
    ∧ (((s.halve_time_step reset_step).num_step - s.step + 1 : Int) : ℚ)
          * (s.halve_time_step reset_step).dt
        = ((s.num_step - s.step + 1 : Int) : ℚ) * s.dt
    ∧ (s.halve_time_step reset_step).step = s.step
    ∧ (s.halve_time_step reset_step).divcontrefinelevel_ = s.divcontrefinelevel_ + 1
    ∧ (s.halve_time_step reset_step).divcontfinesteps_ = 0
    ∧ (s.halve_time_step reset_step).resetiter_ = s.resetiter_ + s.iter_ := by
  have e1 := wrapInt_of_isInt _ h1
  have e2 := wrapInt_of_isInt _ h2
  have e3 := wrapInt_of_isInt _ h3
  have e4 := wrapInt_of_isInt _ h4
  have e5 := wrapInt_of_isInt _ h5
  obtain ⟨r1, r2, r3, r4, r5, r6, r7, r8⟩ := hreset
    (((s.set_dt (s.dt * 0.5)).set_timen ((s.set_dt (s.dt * 0.5)).time_old + s.dt * 0.5)).set_num_step
      (wrapInt (wrapInt (s.num_step + wrapInt (s.num_step - s.step)) + 1)))
  have hdt : (s.halve_time_step reset_step).dt = s.dt / 2 := by
    simp only [TimIntImpl.halve_time_step, r1]
    simp only [TimIntImpl.set_dt, TimIntImpl.set_timen, TimIntImpl.set_num_step]
    norm_num; ring
  have hns : (s.halve_time_step reset_step).num_step = 2 * s.num_step - s.step + 1 := by
    simp only [TimIntImpl.halve_time_step, r5]
    simp only [TimIntImpl.set_dt, TimIntImpl.set_timen, TimIntImpl.set_num_step, e1, e2, e3]
    ring
  refine ⟨hdt, ?_, hns, ?_, ?_, ?_, ?_, ?_⟩
  · simp only [TimIntImpl.halve_time_step, r3]
    simp only [TimIntImpl.set_dt, TimIntImpl.set_timen, TimIntImpl.set_num_step]
    norm_num; ring
  · rw [hdt, hns]; push_cast; ring
  · simp only [TimIntImpl.halve_time_step, r4]
    simp only [TimIntImpl.set_dt, TimIntImpl.set_timen, TimIntImpl.set_num_step]
  · simp only [TimIntImpl.halve_time_step, r6]
    simp only [TimIntImpl.set_dt, TimIntImpl.set_timen, TimIntImpl.set_num_step, e4]
  · simp only [TimIntImpl.halve_time_step]
  · simp only [TimIntImpl.halve_time_step, r7, r8]
    simp only [TimIntImpl.set_dt, TimIntImpl.set_timen, TimIntImpl.set_num_step, e5]

/-- C19. When the remaining step count `num_step - step` fits an `int`,
`check_for_time_step_increase()` doubles the step size exactly if
`divcontype_` is `divcont_halve_step`, `divcontrefinelevel_` is non-zero, the
incremented `divcontfinesteps_` is at least 4 and `num_step - step` is even
and non-zero. In that case
`dt' = 2 * dt` and `num_step' = num_step - (num_step - step) / 2`, so
`(num_step' - step) * dt' = (num_step - step) * dt`; in every other case
`dt` and `num_step` are unchanged. -/
theorem C19_check_for_time_step_increase (s : TimIntImpl)
    (hn : isInt s.num_step) (hs : isInt s.step) (h1 : isInt (s.num_step - s.step)) :
    (doublesStep s →
        s.check_for_time_step_increase.dt = 2 * s.dt
        ∧ s.check_for_time_step_increase.num_step = s.num_step - (s.num_step - s.step) / 2
        ∧ ((s.check_for_time_step_increase.num_step - s.step : Int) : ℚ)
              * s.check_for_time_step_increase.dt
            = ((s.num_step - s.step : Int) : ℚ) * s.dt)
    ∧ (¬ doublesStep s →
        s.check_for_time_step_increase.dt = s.dt
        ∧ s.check_for_time_step_increase.num_step = s.num_step)
    ∧ (s.check_for_time_step_increase.dt ≠ s.dt → doublesStep s)
    ∧ s.check_for_time_step_increase.step = s.step := by
  have hd : wrapInt (s.num_step - s.step) = s.num_step - s.step := wrapInt_of_isInt _ h1
  have hmod : (s.num_step - s.step).tmod 2 = 0 ↔ (s.num_step - s.step) % 2 = 0 := by
    rw [← Int.dvd_iff_tmod_eq_zero, Int.dvd_iff_emod_eq_zero]
  have hne : s.num_step ≠ s.step ↔ s.num_step - s.step ≠ 0 := by
    constructor <;> intro h <;> omega
  have hyes : doublesStep s →
      s.check_for_time_step_increase.dt = 2 * s.dt
      ∧ s.check_for_time_step_increase.num_step = s.num_step - (s.num_step - s.step) / 2 := by
    rintro ⟨ht, hl, hfs, hev, hnz⟩
    have hdiv : (s.num_step - s.step).tdiv 2 = (s.num_step - s.step) / 2 :=
      Int.tdiv_eq_ediv_of_dvd (Int.dvd_of_emod_eq_zero hev)
    have hend : wrapInt (s.num_step - (s.num_step - s.step) / 2)
        = s.num_step - (s.num_step - s.step) / 2 :=
      wrapInt_of_isInt _ (by unfold isInt at *; omega)
    have c1 : ¬ (s.divcontype_ ≠ DivContAct.divcont_halve_step) := fun h => h ht
    have c3 : wrapInt (s.divcontfinesteps_ + 1) ≥ 4 := hfs
    have c4 : (s.num_step - s.step).tmod 2 = 0 ∧ s.num_step ≠ s.step :=
      ⟨hmod.mpr hev, hne.mpr hnz⟩
    simp only [TimIntImpl.check_for_time_step_increase, if_neg c1, if_pos hl, hd,
      if_pos c3, if_pos c4, TimIntImpl.set_dt, TimIntImpl.set_num_step, hdiv, hend]
    constructor
    · norm_num; ring
    · trivial
  have hno : ¬ doublesStep s → s.check_for_time_step_increase = s
      ∨ s.check_for_time_step_increase
          = { s with divcontfinesteps_ := wrapInt (s.divcontfinesteps_ + 1) } := by
    intro hD
    unfold TimIntImpl.check_for_time_step_increase
    by_cases c1 : s.divcontype_ ≠ DivContAct.divcont_halve_step
    · left; rw [if_pos c1]
    · by_cases c2 : s.divcontrefinelevel_ ≠ 0
      · right
        simp only [if_neg c1, if_pos c2, hd]
        by_cases c3 : wrapInt (s.divcontfinesteps_ + 1) ≥ 4
        · by_cases c4 : (s.num_step - s.step).tmod 2 = 0 ∧ s.num_step ≠ s.step
          · exfalso
            exact hD ⟨not_not.mp c1, c2, c3, hmod.mp c4.1, hne.mp c4.2⟩
          · simp only [if_pos c3, if_neg c4]
        · simp only [if_neg c3]
      · left; rw [if_neg c1, if_neg c2]
  have hno2 : ¬ doublesStep s →
      s.check_for_time_step_increase.dt = s.dt
      ∧ s.check_for_time_step_increase.num_step = s.num_step := by
    intro hD
    rcases hno hD with h | h <;> rw [h] <;> exact ⟨rfl, rfl⟩
  refine ⟨fun hD => ⟨(hyes hD).1, (hyes hD).2, ?_⟩, hno2, ?_, ?_⟩
  · obtain ⟨ht, hl, hfs, hev, hnz⟩ := hD
    rw [(hyes ⟨ht, hl, hfs, hev, hnz⟩).1, (hyes ⟨ht, hl, hfs, hev, hnz⟩).2]
    have h2k : 2 * ((s.num_step - s.step) / 2) = s.num_step - s.step := by omega
    have hq : ((s.num_step - s.step : Int) : ℚ) = 2 * (((s.num_step - s.step) / 2 : Int) : ℚ) := by
      rw [← h2k]; push_cast; rw [h2k]
    have hq2 : ((s.num_step - (s.num_step - s.step) / 2 - s.step : Int) : ℚ)
        = (((s.num_step - s.step) / 2 : Int) : ℚ) := by
      have : s.num_step - (s.num_step - s.step) / 2 - s.step = (s.num_step - s.step) / 2 := by
        omega
      rw [this]
    rw [hq2, hq]; ring
  · intro hne2
    by_contra hD
    exact hne2 (hno2 hD).1
  · by_cases hD : doublesStep s
    · obtain ⟨ht, hl, hfs, hev, hnz⟩ := hD
      have c1 : ¬ (s.divcontype_ ≠ DivContAct.divcont_halve_step) := fun h => h ht
      have c3 : wrapInt (s.divcontfinesteps_ + 1) ≥ 4 := hfs
      have c4 : (s.num_step - s.step).tmod 2 = 0 ∧ s.num_step ≠ s.step :=
        ⟨hmod.mpr hev, hne.mpr hnz⟩
      simp only [TimIntImpl.check_for_time_step_increase, if_neg c1, if_pos hl, hd,
        if_pos c3, if_pos c4, TimIntImpl.set_dt, TimIntImpl.set_num_step]
    · rcases hno hD with h | h <;> rw [h]

/-- C18 at `sampleTimInt` (step 3 of 10, `dt = 1/10`) with a `reset_step` that
changes nothing: the new step size is `1/20` and the new number of steps
18. -/
theorem C18_halve_time_step_witness :
    keepsTimeStepping id
    ∧ isInt (sampleTimInt.num_step - sampleTimInt.step)
    ∧ isInt (sampleTimInt.num_step + (sampleTimInt.num_step - sampleTimInt.step) + 1)
    ∧ (sampleTimInt.halve_time_step id).dt = sampleTimInt.dt / 2
    ∧ (sampleTimInt.halve_time_step id).num_step
        = 2 * sampleTimInt.num_step - sampleTimInt.step + 1
    ∧ (sampleTimInt.halve_time_step id).num_step = 18 :=
  have hk : keepsTimeStepping id := fun _ => ⟨rfl, rfl, rfl, rfl, rfl, rfl, rfl, rfl⟩
  have h := C18_halve_time_step id sampleTimInt hk (by decide) (by decide) (by decide)
    (by decide) (by decide)
  ⟨hk, by decide, by decide, h.1, h.2.2.1, by rw [h.2.2.1]; decide⟩

/-- C19 at `refinedTimInt` (step 4 of 10, three fine steps done, `dt = 1/10`):
the step size is doubled and three steps remain instead of six. -/
theorem C19_check_for_time_step_increase_witness :
    isInt refinedTimInt.num_step ∧ isInt refinedTimInt.step
    ∧ isInt (refinedTimInt.num_step - refinedTimInt.step)
    ∧ doublesStep refinedTimInt
    ∧ refinedTimInt.check_for_time_step_increase.dt = 2 * refinedTimInt.dt
    ∧ refinedTimInt.check_for_time_step_increase.num_step
        = refinedTimInt.num_step - (refinedTimInt.num_step - refinedTimInt.step) / 2
    ∧ refinedTimInt.check_for_time_step_increase.num_step = 7 :=
  have hD : doublesStep refinedTimInt := by decide
  have h := (C19_check_for_time_step_increase refinedTimInt (by decide) (by decide)
    (by decide)).1 hD
  ⟨by decide, by decide, by decide, hD, h.1, h.2.1, by rw [h.2.1]; decide⟩

end Thermo
